import Mathlib

/-!
Verification development for the TinyFrame framing protocol.

The repository ships the public header `TinyFrame.h` (configuration
constants, the message structure, `TF_ClearMsg`, and the declarations of
all entry points).  The implementation file is not part of the sources,
so every behavioural definition below that is not taken verbatim from the
header is modelled from the specification document, as indicated by its
doc comment.

Configuration fixed by the header: ID = 1 byte, LEN = 2 bytes,
TYPE = 1 byte, checksum = CRC-16 (poly 0x8005, reflected, init 0xFFFF),
SOF byte 0x01 enabled, payload maxima 1024, listener table capacities
20 / 20 / 4, parser timeout 10 ticks.
-/

namespace TinyFrame

/-- `TF_MAX_PAYLOAD_RX` from TinyFrame.h. -/
def TF_MAX_PAYLOAD_RX : Nat := 1024

/-- `TF_MAX_PAYLOAD_TX` from TinyFrame.h. -/
def TF_MAX_PAYLOAD_TX : Nat := 1024

/-- `TF_MAX_ID_LST` from TinyFrame.h. -/
def TF_MAX_ID_LST : Nat := 20

/-- `TF_MAX_TYPE_LST` from TinyFrame.h. -/
def TF_MAX_TYPE_LST : Nat := 20

/-- `TF_MAX_GEN_LST` from TinyFrame.h. -/
def TF_MAX_GEN_LST : Nat := 4

/-- `TF_PARSER_TIMEOUT_TICKS` from TinyFrame.h. -/
def TF_PARSER_TIMEOUT_TICKS : Nat := 10

/-- `TF_ID_BYTES` from TinyFrame.h. -/
def TF_ID_BYTES : Nat := 1

/-- `TF_LEN_BYTES` from TinyFrame.h. -/
def TF_LEN_BYTES : Nat := 2

/-- `TF_TYPE_BYTES` from TinyFrame.h. -/
def TF_TYPE_BYTES : Nat := 1

/-- `TF_SOF_BYTE` from TinyFrame.h. -/
def TF_SOF_BYTE : Nat := 0x01

/-- `TF_ID_MASK` from TinyFrame.h: `(TF_ID)(((TF_ID)1 << (sizeof(TF_ID)*8 - 1)) - 1)`
with `TF_ID = uint8_t`, i.e. `0x7F`. -/
def TF_ID_MASK : Nat := 0x7F

/-- `TF_ID_PEERBIT` from TinyFrame.h: `(TF_ID)((TF_ID)1 << ((sizeof(TF_ID)*8) - 1))`
with `TF_ID = uint8_t`, i.e. `0x80`. -/
def TF_ID_PEERBIT : Nat := 0x80

/-- `TF_PEER` enum from TinyFrame.h. -/
inductive TF_PEER where
  | TF_SLAVE
  | TF_MASTER
deriving DecidableEq

/-- `TF_MSG` structure from TinyFrame.h.  `data = Option.none` models a
NULL data pointer; `userdata` is an opaque handle modelled as `Option Nat`. -/
@[ext]
structure TF_MSG where
  frame_id : Nat
  is_response : Bool
  type : Nat
  data : Option (List Nat)
  len : Nat
  userdata : Option Nat
deriving DecidableEq

/-- `TF_ClearMsg` from TinyFrame.h: sets every field of the message
structure to its neutral value. -/
def TF_ClearMsg (_msg : TF_MSG) : TF_MSG :=
  { frame_id := 0
    is_response := false
    type := 0
    data := Option.none
    len := 0
    userdata := Option.none }

/-- Checksum variants of the protocol (`TF_CKSUM_TYPE` selects one;
the header fixes CRC-16). -/
inductive CksumKind where
  | ckNone
  | ckXor8
  | ckCrc16
  | ckCrc32
deriving DecidableEq

/-- Width in bytes of the checksum field for each variant. -/
def cksumBytes : CksumKind → Nat
  | .ckNone => 0
  | .ckXor8 => 1
  | .ckCrc16 => 2
  | .ckCrc32 => 4

/-- Iterate a bit-step function a given number of times. -/
def crcBits : Nat → (Nat → Nat) → Nat → Nat
  | 0, _, r => r
  | n + 1, f, r => crcBits n f (f r)

/-- Modelled from the spec: one bit step of the reflected CRC-16 with
polynomial 0x8005 (reflected form 0xA001).  The checksum implementation
is in the missing implementation file. -/
def crc16Bit (r : Nat) : Nat :=
  if r % 2 = 1 then (r / 2) ^^^ 0xA001 else r / 2

/-- Modelled from the spec: CRC-16 update by one input byte. -/
def crc16Byte (r b : Nat) : Nat := crcBits 8 crc16Bit (r ^^^ b)

/-- Modelled from the spec: one bit step of the reflected CRC-32 with
polynomial 0xEDB88320. -/
def crc32Bit (r : Nat) : Nat :=
  if r % 2 = 1 then (r / 2) ^^^ 0xEDB88320 else r / 2

/-- Modelled from the spec: CRC-32 update by one input byte. -/
def crc32Byte (r b : Nat) : Nat := crcBits 8 crc32Bit (r ^^^ b)

/-- Modelled from the spec: initial checksum accumulator value per variant
(CRC-16 starts at 0xFFFF, CRC-32 at 0xFFFFFFFF, XOR-8 seed 0). -/
def cksumInit : CksumKind → Nat
  | .ckNone => 0
  | .ckXor8 => 0
  | .ckCrc16 => 0xFFFF
  | .ckCrc32 => 0xFFFFFFFF

/-- Modelled from the spec: checksum accumulator update by one byte. -/
def cksumUpdate : CksumKind → Nat → Nat → Nat
  | .ckNone, r, _ => r
  | .ckXor8, r, b => r ^^^ b
  | .ckCrc16, r, b => crc16Byte r b
  | .ckCrc32, r, b => crc32Byte r b

/-- Modelled from the spec: checksum finalization (XOR-8 ends with a
bitwise NOT, CRC-32 with a final XOR of 0xFFFFFFFF, CRC-16 with none). -/
def cksumFinal : CksumKind → Nat → Nat
  | .ckNone, r => r
  | .ckXor8, r => 0xFF ^^^ (r % 256)
  | .ckCrc16, r => r
  | .ckCrc32, r => r ^^^ 0xFFFFFFFF

/-- Modelled from the spec: checksum of a byte list. -/
def cksumOf (k : CksumKind) (bs : List Nat) : Nat :=
  cksumFinal k (List.foldl (cksumUpdate k) (cksumInit k) bs)

/-- Big-endian byte serialization of a value into a fixed number of bytes
(multi-byte integers are big-endian on the wire). -/
def beBytes : Nat → Nat → List Nat
  | 0, _ => []
  | n + 1, v => beBytes n (v / 256) ++ [v % 256]

/-- Modelled from the spec: the frame header on the wire — SOF byte, ID,
LEN, TYPE, followed by the header checksum (covering SOF through TYPE)
when the checksum variant is not `ckNone`.  The encoder lives in the
missing implementation file. -/
def frameHeader (k : CksumKind) (fid len typ : Nat) : List Nat :=
  let hdr := [TF_SOF_BYTE] ++ beBytes TF_ID_BYTES fid ++
    beBytes TF_LEN_BYTES len ++ beBytes TF_TYPE_BYTES typ
  hdr ++ (if k = CksumKind.ckNone then [] else beBytes (cksumBytes k) (cksumOf k hdr))

/-- Modelled from the spec: a complete frame on the wire — header, payload,
and the payload checksum, present iff the variant is not `ckNone` and the
payload is nonempty. -/
def encodeFrame (k : CksumKind) (fid typ : Nat) (payload : List Nat) : List Nat :=
  frameHeader k fid payload.length typ ++ payload ++
    (if k ≠ CksumKind.ckNone ∧ 0 < payload.length then
      beBytes (cksumBytes k) (cksumOf k payload)
    else [])

/-- Decoder state labels of the receive state machine. -/
inductive PState where
  | psof
  | pid
  | plen
  | ptype
  | phck
  | pdata
  | ppck
deriving DecidableEq

/-- Modelled from the spec: the decoder (parser) state — current state
label, bytes remaining in the current field (`cnt`), big-endian
accumulator for the field being collected (`acc`), the decoded header
fields, the running header and payload checksums, the collected payload
bytes, and the parser timeout countdown. -/
@[ext]
structure Parser where
  st : PState
  cnt : Nat
  acc : Nat
  id : Nat
  len : Nat
  typ : Nat
  hcrc : Nat
  pcrc : Nat
  buf : List Nat
  tmo : Nat
deriving DecidableEq

/-- The parser in its initial (reset) state: initial state label, cleared
buffers and accumulators, disarmed timeout. -/
def initParser : Parser :=
  { st := PState.psof
    cnt := 0
    acc := 0
    id := 0
    len := 0
    typ := 0
    hcrc := 0
    pcrc := 0
    buf := []
    tmo := 0 }

/-- Modelled from the spec: `TF_ResetParser` resets the state machine —
clears partial buffers, zeroes accumulators, returns to the initial
state and disarms the timeout. -/
def resetParser (_p : Parser) : Parser := initParser

/-- Modelled from the spec: the decoder consuming one byte
(`TF_AcceptChar`), at the header's fixed configuration (SOF enabled,
CRC-16).  Returns the new parser state and the completed message when the
byte finishes a checksum-verified frame.  On the transition out of the
initial state the timeout is armed to `TF_PARSER_TIMEOUT_TICKS`; a bad
header checksum, an implausible LEN or a bad payload checksum reset the
parser. -/
def acceptChar (p : Parser) (b : Nat) : Parser × Option TF_MSG :=
  match p.st with
  | PState.psof =>
    if b = TF_SOF_BYTE then
      ({ p with st := PState.pid
                cnt := TF_ID_BYTES
                acc := 0
                hcrc := cksumUpdate CksumKind.ckCrc16 (cksumInit CksumKind.ckCrc16) b
                tmo := TF_PARSER_TIMEOUT_TICKS }, Option.none)
    else (p, Option.none)
  | PState.pid =>
    let a := p.acc * 256 + b
    let h := cksumUpdate CksumKind.ckCrc16 p.hcrc b
    if p.cnt ≤ 1 then
      ({ p with st := PState.plen, cnt := TF_LEN_BYTES, acc := 0, id := a, hcrc := h },
        Option.none)
    else ({ p with cnt := p.cnt - 1, acc := a, hcrc := h }, Option.none)
  | PState.plen =>
    let a := p.acc * 256 + b
    let h := cksumUpdate CksumKind.ckCrc16 p.hcrc b
    if p.cnt ≤ 1 then
      ({ p with st := PState.ptype, cnt := TF_TYPE_BYTES, acc := 0, len := a, hcrc := h },
        Option.none)
    else ({ p with cnt := p.cnt - 1, acc := a, hcrc := h }, Option.none)
  | PState.ptype =>
    let a := p.acc * 256 + b
    let h := cksumUpdate CksumKind.ckCrc16 p.hcrc b
    if p.cnt ≤ 1 then
      ({ p with st := PState.phck, cnt := cksumBytes CksumKind.ckCrc16, acc := 0,
                typ := a, hcrc := h }, Option.none)
    else ({ p with cnt := p.cnt - 1, acc := a, hcrc := h }, Option.none)
  | PState.phck =>
    let a := p.acc * 256 + b
    if p.cnt ≤ 1 then
      if a = cksumFinal CksumKind.ckCrc16 p.hcrc then
        if p.len = 0 then
          (resetParser p,
            Option.some { frame_id := p.id
                          is_response := false
                          type := p.typ
                          data := Option.some []
                          len := 0
                          userdata := Option.none })
        else if TF_MAX_PAYLOAD_RX < p.len then (resetParser p, Option.none)
        else ({ p with st := PState.pdata, cnt := p.len, acc := 0, buf := [],
                       pcrc := cksumInit CksumKind.ckCrc16 }, Option.none)
      else (resetParser p, Option.none)
    else ({ p with cnt := p.cnt - 1, acc := a }, Option.none)
  | PState.pdata =>
    let nb := p.buf ++ [b]
    let c := cksumUpdate CksumKind.ckCrc16 p.pcrc b
    if p.cnt ≤ 1 then
      ({ p with st := PState.ppck, cnt := cksumBytes CksumKind.ckCrc16, acc := 0,
                buf := nb, pcrc := c }, Option.none)
    else ({ p with cnt := p.cnt - 1, buf := nb, pcrc := c }, Option.none)
  | PState.ppck =>
    let a := p.acc * 256 + b
    if p.cnt ≤ 1 then
      if a = cksumFinal CksumKind.ckCrc16 p.pcrc then
        (resetParser p,
          Option.some { frame_id := p.id
                        is_response := false
                        type := p.typ
                        data := Option.some p.buf
                        len := p.buf.length
                        userdata := Option.none })
      else (resetParser p, Option.none)
    else ({ p with cnt := p.cnt - 1, acc := a }, Option.none)

/-- Feed a list of bytes to the decoder, collecting every completed
message in order. -/
def acceptList : Parser → List Nat → Parser × List TF_MSG
  | p, [] => (p, [])
  | p, b :: bs =>
    match acceptChar p b with
    | (p1, Option.none) => acceptList p1 bs
    | (p1, Option.some m) =>
      let r := acceptList p1 bs
      (r.1, m :: r.2)

/-- Modelled from the spec: one tick of the parser timeout — in a
non-initial state the countdown decrements and the parser resets when it
reaches zero, discarding the partial frame. -/
def parserTick (p : Parser) : Parser :=
  if p.st = PState.psof then p
  else if p.tmo ≤ 1 then resetParser p
  else { p with tmo := p.tmo - 1 }

/-- Modelled from the spec: a live by-ID listener slot — listened-for
frame id, callback (an opaque identifier routed through a behaviour
environment), the caller's userdata, remaining and initial timeout. -/
structure IdSlot where
  id : Nat
  cb : Nat
  userdata : Option Nat
  timeout_remaining : Nat
  timeout_initial : Nat
deriving DecidableEq

/-- Modelled from the spec: a live by-type listener slot. -/
structure TypeSlot where
  type : Nat
  cb : Nat
deriving DecidableEq

/-- Modelled from the spec: the endpoint state — peer bit, `next_id`
counter (full id value, peer bit included), parser state, and the three
listener tables (lists of the live slots, scanned in order, with the
fixed capacities from the header). -/
structure Endpoint where
  peer : TF_PEER
  next_id : Nat
  parser : Parser
  id_table : List IdSlot
  type_table : List TypeSlot
  gen_table : List Nat
deriving DecidableEq

/-- Modelled from the spec: `TF_Init` — clean state with all tables empty,
parser reset, and the id counter carrying the configured peer bit with
low bits zero (0 is "unset"). -/
def TF_Init (peer : TF_PEER) : Endpoint :=
  { peer := peer
    next_id := match peer with
      | TF_PEER.TF_MASTER => TF_ID_PEERBIT
      | TF_PEER.TF_SLAVE => 0
    parser := initParser
    id_table := []
    type_table := []
    gen_table := [] }

/-- Modelled from the spec: successor of the low (counter) bits of the
frame id — incremented modulo `TF_ID_MASK`, wrapping back to 1 (never 0). -/
def nextLow (low : Nat) : Nat :=
  if TF_ID_MASK ≤ low then 1 else low + 1

/-- Modelled from the spec: allocate the next originating frame id —
advance the low counter bits and apply the endpoint's peer bit; the new
full id is remembered in `next_id`. -/
def genId (e : Endpoint) : Nat × Endpoint :=
  let low := nextLow (e.next_id % TF_ID_PEERBIT)
  let fid := (match e.peer with
    | TF_PEER.TF_MASTER => TF_ID_PEERBIT
    | TF_PEER.TF_SLAVE => 0) + low
  (fid, { e with next_id := fid })

/-- Modelled from the spec: register a by-ID listener slot.  Fails
(`Option.none`) when a live slot for the id already exists (duplicates
never evict) or when the table is at capacity `TF_MAX_ID_LST`. -/
def addIdListener (e : Endpoint) (fid cb : Nat) (ud : Option Nat) (timeout : Nat) :
    Option Endpoint :=
  if e.id_table.any (fun s => s.id = fid) then Option.none
  else if TF_MAX_ID_LST ≤ e.id_table.length then Option.none
  else Option.some { e with id_table := e.id_table ++
    [{ id := fid
       cb := cb
       userdata := ud
       timeout_remaining := timeout
       timeout_initial := timeout }] }

/-- Modelled from the spec: `TF_AddIdListener` — register a by-ID listener
for `msg.frame_id` carrying `msg.userdata`. -/
def TF_AddIdListener (e : Endpoint) (msg : TF_MSG) (cb timeout : Nat) : Option Endpoint :=
  addIdListener e msg.frame_id cb msg.userdata timeout

/-- Remove every by-ID slot registered for the given frame id. -/
def removeIdSlot (tbl : List IdSlot) (fid : Nat) : List IdSlot :=
  tbl.filter (fun s => s.id ≠ fid)

/-- Modelled from the spec: `TF_RemoveIdListener`. -/
def TF_RemoveIdListener (e : Endpoint) (fid : Nat) : Endpoint :=
  { e with id_table := removeIdSlot e.id_table fid }

/-- Modelled from the spec: `TF_RenewIdListener` — reset the slot's
remaining timeout to its initial value. -/
def renewIdListener (e : Endpoint) (fid : Nat) : Endpoint :=
  { e with id_table := e.id_table.map (fun s =>
      if s.id = fid then { s with timeout_remaining := s.timeout_initial } else s) }

/-- Modelled from the spec: `TF_AddTypeListener`. -/
def TF_AddTypeListener (e : Endpoint) (ty cb : Nat) : Option Endpoint :=
  if TF_MAX_TYPE_LST ≤ e.type_table.length then Option.none
  else Option.some { e with type_table := e.type_table ++ [{ type := ty, cb := cb }] }

/-- Modelled from the spec: `TF_RemoveTypeListener`. -/
def TF_RemoveTypeListener (e : Endpoint) (ty : Nat) : Endpoint :=
  { e with type_table := e.type_table.filter (fun s => s.type ≠ ty) }

/-- Modelled from the spec: `TF_AddGenericListener`. -/
def TF_AddGenericListener (e : Endpoint) (cb : Nat) : Option Endpoint :=
  if TF_MAX_GEN_LST ≤ e.gen_table.length then Option.none
  else Option.some { e with gen_table := e.gen_table ++ [cb] }

/-- Modelled from the spec: `TF_RemoveGenericListener`. -/
def TF_RemoveGenericListener (e : Endpoint) (cb : Nat) : Endpoint :=
  { e with gen_table := e.gen_table.filter (fun c => c ≠ cb) }

/-- Modelled from the spec: `TF_ResetParser` at endpoint level — drops the
partial frame, keeps the listeners. -/
def TF_ResetParser (e : Endpoint) : Endpoint :=
  { e with parser := resetParser e.parser }

/-- Error kinds of the send path. -/
inductive SendErr where
  | Capacity
  | TableFull
deriving DecidableEq

/-- Modelled from the spec: `TF_Send` — reject an over-long payload with
`Capacity`; allocate a fresh frame id unless `is_response` is set (a
response reuses `msg.frame_id` verbatim); register the optional response
listener (failure is `TableFull` and nothing is emitted, no partial state
remains); encode the frame and emit it in one push.  Returns the new
endpoint state, the emitted bytes and the frame id used. -/
def TF_Send (e : Endpoint) (msg : TF_MSG) (listener : Option Nat) (timeout : Nat) :
    Except SendErr (Endpoint × List Nat × Nat) :=
  let payload := msg.data.getD []
  if TF_MAX_PAYLOAD_TX < payload.length then Except.error SendErr.Capacity
  else
    let fe := if msg.is_response then (msg.frame_id, e) else genId e
    match listener with
    | Option.none =>
      Except.ok (fe.2, encodeFrame CksumKind.ckCrc16 fe.1 msg.type payload, fe.1)
    | Option.some cb =>
      match addIdListener fe.2 fe.1 cb msg.userdata timeout with
      | Option.none => Except.error SendErr.TableFull
      | Option.some e2 =>
        Except.ok (e2, encodeFrame CksumKind.ckCrc16 fe.1 msg.type payload, fe.1)

/-- Modelled from the spec: `TF_Respond` — like `TF_Send` with
`is_response = true`; when `renew` is set the matching by-ID listener's
timeout is reset first. -/
def TF_Respond (e : Endpoint) (msg : TF_MSG) (renew : Bool) :
    Except SendErr (Endpoint × List Nat × Nat) :=
  let e1 := if renew then renewIdListener e msg.frame_id else e
  TF_Send e1 { msg with is_response := true } Option.none 0

/-- Modelled from the spec: generic-tier dispatch — offer the frame to
each generic listener in order until one consumes it; returns the
callbacks invoked. -/
def dispatchGeneric (env : Nat → TF_MSG → Bool) (gens : List Nat) (msg : TF_MSG) :
    List Nat :=
  match gens with
  | [] => []
  | cb :: rest =>
    if env cb msg then [cb] else cb :: dispatchGeneric env rest msg

/-- Modelled from the spec: the dispatcher for one completed,
checksum-verified frame.  Priority order: by-ID (consumed removes the
slot, otherwise a nonzero timeout is renewed; done either way), then
by-type (invoke the first match, done), then the generic listeners in
order until one consumes.  `env` is the callback behaviour (whether a
callback consumes a given message).  Returns the new endpoint and the
callbacks invoked, in order. -/
def dispatchMsg (env : Nat → TF_MSG → Bool) (e : Endpoint) (m : TF_MSG) :
    Endpoint × List Nat :=
  match e.id_table.find? (fun s => s.id = m.frame_id) with
  | Option.some s =>
    if env s.cb { m with userdata := s.userdata } then
      ({ e with id_table := removeIdSlot e.id_table m.frame_id }, [s.cb])
    else if s.timeout_initial ≠ 0 then (renewIdListener e m.frame_id, [s.cb])
    else (e, [s.cb])
  | Option.none =>
    match e.type_table.find? (fun s => s.type = m.type) with
    | Option.some s => (e, [s.cb])
    | Option.none => (e, dispatchGeneric env e.gen_table m)

/-- Modelled from the spec: `TF_Accept` — feed inbound bytes to the
decoder; every completed frame is handed to the dispatcher.  Returns the
new endpoint and the completed messages delivered to the dispatcher, in
order. -/
def TF_Accept (env : Nat → TF_MSG → Bool) : Endpoint → List Nat → Endpoint × List TF_MSG
  | e, [] => (e, [])
  | e, b :: bs =>
    match acceptChar e.parser b with
    | (p1, Option.none) => TF_Accept env { e with parser := p1 } bs
    | (p1, Option.some m) =>
      let e1 := (dispatchMsg env { e with parser := p1 } m).1
      let r := TF_Accept env e1 bs
      (r.1, m :: r.2)

/-- The sentinel no-payload message a by-ID listener receives on timeout
expiry: NULL data, zero length, type 0, the slot's original frame id and
userdata. -/
def timeoutMsg (s : IdSlot) : TF_MSG :=
  { frame_id := s.id
    is_response := false
    type := 0
    data := Option.none
    len := 0
    userdata := s.userdata }

/-- Modelled from the spec: one tick applied to a by-ID slot — a slot with
`timeout_initial = 0` is kept forever; otherwise the remaining countdown
decrements and on reaching zero the slot is cleared and its callback is
notified once with the sentinel no-payload message. -/
def sweepSlot (s : IdSlot) : Option IdSlot × List (Nat × TF_MSG) :=
  if s.timeout_initial = 0 then (Option.some s, [])
  else if s.timeout_remaining ≤ 1 then (Option.none, [(s.cb, timeoutMsg s)])
  else (Option.some { s with timeout_remaining := s.timeout_remaining - 1 }, [])

/-- Modelled from the spec: `TF_Tick` — advance the parser timeout and
sweep the by-ID table.  Returns the new endpoint and the timeout
notifications (callback, sentinel message) issued during this tick. -/
def TF_Tick (e : Endpoint) : Endpoint × List (Nat × TF_MSG) :=
  let swept := e.id_table.map sweepSlot
  ({ e with parser := parserTick e.parser
            id_table := swept.filterMap Prod.fst },
    (swept.map Prod.snd).flatten)

/-- Iterate `TF_Tick` a number of times, collecting every timeout
notification in order. -/
def ticksN : Endpoint → Nat → Endpoint × List (Nat × TF_MSG)
  | e, 0 => (e, [])
  | e, n + 1 =>
    let r1 := TF_Tick e
    let r2 := ticksN r1.1 n
    (r2.1, r1.2 ++ r2.2)

/-- Iterate the parser tick alone. -/
def parserTickN : Nat → Parser → Parser
  | 0, p => p
  | n + 1, p => parserTickN n (parserTick p)

/-- The frame ids issued by a run of consecutive originating `TF_Send`
calls on one endpoint (stopping early if a send fails). -/
def sendIds : Endpoint → TF_MSG → Nat → List Nat
  | _, _, 0 => []
  | e, msg, n + 1 =>
    match TF_Send e msg Option.none 0 with
    | Except.ok r => r.2.2 :: sendIds r.1 msg n
    | Except.error _ => []

/-- The by-ID table never holds two slots for the same frame id. -/
def idsUnique (e : Endpoint) : Prop :=
  e.id_table.Pairwise (fun a b => a.id ≠ b.id)

/-- The endpoint states reachable from `TF_Init` through the public
entry points (with arbitrary callback behaviour environments). -/
inductive Reachable : Endpoint → Prop where
  | init (peer : TF_PEER) : Reachable (TF_Init peer)
  | sendOk {e e' : Endpoint} {bs : List Nat} {fid : Nat}
      (msg : TF_MSG) (l : Option Nat) (t : Nat) :
      Reachable e → TF_Send e msg l t = Except.ok (e', bs, fid) → Reachable e'
  | respondOk {e e' : Endpoint} {bs : List Nat} {fid : Nat}
      (msg : TF_MSG) (renew : Bool) :
      Reachable e → TF_Respond e msg renew = Except.ok (e', bs, fid) → Reachable e'
  | addId {e e' : Endpoint} (msg : TF_MSG) (cb t : Nat) :
      Reachable e → TF_AddIdListener e msg cb t = Option.some e' → Reachable e'
  | removeId {e : Endpoint} (fid : Nat) :
      Reachable e → Reachable (TF_RemoveIdListener e fid)
  | renewL {e : Endpoint} (fid : Nat) :
      Reachable e → Reachable (renewIdListener e fid)
  | addType {e e' : Endpoint} (ty cb : Nat) :
      Reachable e → TF_AddTypeListener e ty cb = Option.some e' → Reachable e'
  | removeType {e : Endpoint} (ty : Nat) :
      Reachable e → Reachable (TF_RemoveTypeListener e ty)
  | addGen {e e' : Endpoint} (cb : Nat) :
      Reachable e → TF_AddGenericListener e cb = Option.some e' → Reachable e'
  | removeGen {e : Endpoint} (cb : Nat) :
      Reachable e → Reachable (TF_RemoveGenericListener e cb)
  | resetP {e : Endpoint} : Reachable e → Reachable (TF_ResetParser e)
  | accept {e : Endpoint} (env : Nat → TF_MSG → Bool) (bs : List Nat) :
      Reachable e → Reachable (TF_Accept env e bs).1
  | tick {e : Endpoint} : Reachable e → Reachable (TF_Tick e).1

/-! ### Helper lemmas about `TF_Send` and id allocation -/

theorem nextLow_pos (l : Nat) : 1 ≤ nextLow l := by
  unfold nextLow; split <;> omega

theorem nextLow_le (l : Nat) (h : l ≤ TF_ID_MASK) : nextLow l ≤ TF_ID_MASK := by
  unfold nextLow TF_ID_MASK at *; split <;> omega

theorem genId_low_bounds (e : Endpoint) :
    1 ≤ (genId e).1 % TF_ID_PEERBIT ∧ (genId e).1 % TF_ID_PEERBIT ≤ TF_ID_MASK ∧
    (genId e).1 % TF_ID_PEERBIT = nextLow (e.next_id % TF_ID_PEERBIT) := by
  have hlow : e.next_id % TF_ID_PEERBIT ≤ TF_ID_MASK := by
    unfold TF_ID_PEERBIT TF_ID_MASK; omega
  have h1 := nextLow_pos (e.next_id % TF_ID_PEERBIT)
  have h2 := nextLow_le (e.next_id % TF_ID_PEERBIT) hlow
  unfold genId
  cases e.peer <;>
    simp only [TF_ID_PEERBIT, TF_ID_MASK] at * <;> omega

theorem genId_next_id (e : Endpoint) : ((genId e).2).next_id = (genId e).1 := by
  unfold genId; rfl

theorem genId_master (e : Endpoint) (h : e.peer = TF_PEER.TF_MASTER) :
    (genId e).1 = TF_ID_PEERBIT + nextLow (e.next_id % TF_ID_PEERBIT) := by
  unfold genId; rw [h]

theorem genId_slave (e : Endpoint) (h : e.peer = TF_PEER.TF_SLAVE) :
    (genId e).1 = nextLow (e.next_id % TF_ID_PEERBIT) := by
  unfold genId; rw [h]; simp

/-- Inversion of a successful `TF_Send`: the chosen frame id (inbound id
verbatim for a response, freshly generated otherwise), the emitted bytes
(the encoded frame), the payload capacity bound, and the listener table
of the new state. -/
theorem send_ok_inv {e e' : Endpoint} {msg : TF_MSG} {l : Option Nat} {t : Nat}
    {bs : List Nat} {fid : Nat}
    (h : TF_Send e msg l t = Except.ok (e', bs, fid)) :
    fid = (if msg.is_response then msg.frame_id else (genId e).1) ∧
    bs = encodeFrame CksumKind.ckCrc16 fid msg.type (msg.data.getD []) ∧
    (msg.data.getD []).length ≤ TF_MAX_PAYLOAD_TX := by
  have hstep : ∀ (e0 : Endpoint) (fid0 : Nat),
      (match l with
        | Option.none =>
          Except.ok (e0, encodeFrame CksumKind.ckCrc16 fid0 msg.type (msg.data.getD []), fid0)
        | Option.some cb =>
          match addIdListener e0 fid0 cb msg.userdata t with
          | Option.none => Except.error SendErr.TableFull
          | Option.some e2 =>
            Except.ok (e2, encodeFrame CksumKind.ckCrc16 fid0 msg.type (msg.data.getD []), fid0))
        = Except.ok (e', bs, fid) →
      fid = fid0 ∧ bs = encodeFrame CksumKind.ckCrc16 fid0 msg.type (msg.data.getD []) := by
    intro e0 fid0 hm
    cases l with
    | none =>
      simp only [Except.ok.injEq, Prod.mk.injEq] at hm
      exact ⟨hm.2.2.symm, hm.2.1.symm⟩
    | some cb =>
      replace hm : (match addIdListener e0 fid0 cb msg.userdata t with
        | Option.none => Except.error SendErr.TableFull
        | Option.some e2 =>
          Except.ok (e2, encodeFrame CksumKind.ckCrc16 fid0 msg.type (msg.data.getD []), fid0))
          = Except.ok (e', bs, fid) := hm
      cases hadd : addIdListener e0 fid0 cb msg.userdata t with
      | none => rw [hadd] at hm; exact absurd hm (by simp)
      | some e2 =>
        rw [hadd] at hm
        simp only [Except.ok.injEq, Prod.mk.injEq] at hm
        exact ⟨hm.2.2.symm, hm.2.1.symm⟩
  simp only [TF_Send] at h
  by_cases hcap : TF_MAX_PAYLOAD_TX < (msg.data.getD []).length
  · rw [if_pos hcap] at h; exact absurd h (by simp)
  · rw [if_neg hcap] at h
    by_cases hr : msg.is_response = true
    · simp only [if_pos hr] at h ⊢
      have := hstep e msg.frame_id h
      exact ⟨this.1, by rw [this.2, this.1], by omega⟩
    · simp only [if_neg hr] at h ⊢
      have := hstep (genId e).2 (genId e).1 h
      exact ⟨this.1, by rw [this.2, this.1], by omega⟩

/-! ### Claim theorems: C10, C2, C8 -/

/-- Claim C10: for every message struct `msg`, after `TF_ClearMsg msg` all
fields hold their neutral values: `frame_id = 0`, `is_response = false`,
`type = 0`, `data = NULL`, `len = 0`, `userdata = NULL`. -/
theorem clearMsg_neutral (msg : TF_MSG) :
    (TF_ClearMsg msg).frame_id = 0 ∧ (TF_ClearMsg msg).is_response = false ∧
    (TF_ClearMsg msg).type = 0 ∧ (TF_ClearMsg msg).data = Option.none ∧
    (TF_ClearMsg msg).len = 0 ∧ (TF_ClearMsg msg).userdata = Option.none := by
  refine ⟨rfl, rfl, rfl, rfl, rfl, rfl⟩

/-- Claim C2: every frame originated (`is_response = false`) by a
`TF_MASTER` endpoint has the most significant bit of its ID field set,
every frame originated by a `TF_SLAVE` endpoint has it clear, and
`TF_Respond` reuses the inbound frame's identifier verbatim, peer bit
included.  The ID field is one byte; its most significant bit is
`fid / TF_ID_PEERBIT % 2`. -/
theorem peer_bit_spec :
    (∀ (e e' : Endpoint) (msg : TF_MSG) (l : Option Nat) (t : Nat) (bs : List Nat)
      (fid : Nat), e.peer = TF_PEER.TF_MASTER → msg.is_response = false →
      TF_Send e msg l t = Except.ok (e', bs, fid) → fid / TF_ID_PEERBIT % 2 = 1) ∧
    (∀ (e e' : Endpoint) (msg : TF_MSG) (l : Option Nat) (t : Nat) (bs : List Nat)
      (fid : Nat), e.peer = TF_PEER.TF_SLAVE → msg.is_response = false →
      TF_Send e msg l t = Except.ok (e', bs, fid) → fid / TF_ID_PEERBIT % 2 = 0) ∧
    (∀ (e e' : Endpoint) (msg : TF_MSG) (renew : Bool) (bs : List Nat) (fid : Nat),
      TF_Respond e msg renew = Except.ok (e', bs, fid) → fid = msg.frame_id) := by
  refine ⟨?_, ?_, ?_⟩
  · intro e e' msg l t bs fid hm hr h
    have hf := (send_ok_inv h).1
    rw [if_neg (by simp [hr])] at hf
    have hb := genId_low_bounds e
    have hmas := genId_master e hm
    rw [hf, hmas]
    have h1 := nextLow_pos (e.next_id % TF_ID_PEERBIT)
    have h2 := nextLow_le (e.next_id % TF_ID_PEERBIT)
      (by unfold TF_ID_PEERBIT TF_ID_MASK; omega)
    unfold TF_ID_PEERBIT TF_ID_MASK at *
    omega
  · intro e e' msg l t bs fid hm hr h
    have hf := (send_ok_inv h).1
    rw [if_neg (by simp [hr])] at hf
    have hsl := genId_slave e hm
    rw [hf, hsl]
    have h1 := nextLow_pos (e.next_id % TF_ID_PEERBIT)
    have h2 := nextLow_le (e.next_id % TF_ID_PEERBIT)
      (by unfold TF_ID_PEERBIT TF_ID_MASK; omega)
    unfold TF_ID_PEERBIT TF_ID_MASK at *
    omega
  · intro e e' msg renew bs fid h
    unfold TF_Respond at h
    have hf := (send_ok_inv h).1
    simpa using hf

/-- Witness for C2 at concrete inputs. -/
theorem peer_bit_spec_witness :
    129 / TF_ID_PEERBIT % 2 = 1 := by
  have h := peer_bit_spec.1 (TF_Init TF_PEER.TF_MASTER)
    { TF_Init TF_PEER.TF_MASTER with next_id := 129 }
    { frame_id := 0, is_response := false, type := 5, data := Option.none,
      len := 0, userdata := Option.none }
    Option.none 0
    (encodeFrame CksumKind.ckCrc16 129 5 []) 129 rfl rfl (by rfl)
  exact h

/-! ### Claim C3: identifier allocation -/

/-- The value of the peer bit for each peer role. -/
def peerBase : TF_PEER → Nat
  | TF_PEER.TF_MASTER => TF_ID_PEERBIT
  | TF_PEER.TF_SLAVE => 0

theorem genId_eq (e : Endpoint) :
    (genId e).1 = peerBase e.peer + nextLow (e.next_id % TF_ID_PEERBIT) := by
  unfold genId peerBase
  cases e.peer <;> simp

theorem nextLow_formula (l : Nat) (h : l ≤ TF_ID_MASK) :
    nextLow l = l % TF_ID_MASK + 1 := by
  unfold nextLow TF_ID_MASK at *
  split <;> omega

/-- A successful listener-less originating `TF_Send` in closed form. -/
theorem send_none_ok {e : Endpoint} {msg : TF_MSG} {t : Nat}
    (hr : msg.is_response = false)
    (hlen : (msg.data.getD []).length ≤ TF_MAX_PAYLOAD_TX) :
    TF_Send e msg Option.none t = Except.ok ((genId e).2,
      encodeFrame CksumKind.ckCrc16 (genId e).1 msg.type (msg.data.getD []), (genId e).1) := by
  simp only [TF_Send]
  rw [if_neg (by omega), if_neg (by simp [hr])]

/-- The successive low counter values of the id allocator. -/
def lowSeq : Nat → Nat → List Nat
  | _, 0 => []
  | low, n + 1 => nextLow low :: lowSeq (nextLow low) n

theorem lowSeq_length : ∀ (n low : Nat), (lowSeq low n).length = n := by
  intro n
  induction n with
  | zero => intro low; rfl
  | succ n ih => intro low; simp [lowSeq, ih]

theorem lowSeq_get : ∀ (n low k : Nat) (hlt : k < (lowSeq low n).length),
    low ≤ TF_ID_MASK →
    (lowSeq low n).get ⟨k, hlt⟩ = (low + k) % TF_ID_MASK + 1 := by
  intro n
  induction n with
  | zero => intro low k hlt _; simp [lowSeq] at hlt
  | succ n ih =>
    intro low k hlt hle
    cases k with
    | zero =>
      show nextLow low = (low + 0) % TF_ID_MASK + 1
      rw [nextLow_formula low hle]
      unfold TF_ID_MASK
      omega
    | succ k =>
      have h1 : nextLow low ≤ TF_ID_MASK := nextLow_le low hle
      have hlt2 : k < (lowSeq (nextLow low) n).length := by
        have := lowSeq_length (n + 1) low
        have := lowSeq_length n (nextLow low)
        omega
      have hstep : (lowSeq low (n + 1)).get ⟨k + 1, hlt⟩ =
          (lowSeq (nextLow low) n).get ⟨k, hlt2⟩ := rfl
      rw [hstep, ih (nextLow low) k hlt2 h1, nextLow_formula low hle]
      unfold TF_ID_MASK
      omega

theorem lowSeq_nodup (n low : Nat) (hle : low ≤ TF_ID_MASK) (hn : n ≤ TF_ID_MASK) :
    (lowSeq low n).Nodup := by
  rw [List.nodup_iff_injective_get]
  intro i j hij
  have hi := lowSeq_get n low i.1 i.2 hle
  have hj := lowSeq_get n low j.1 j.2 hle
  have heq : (low + i.1) % TF_ID_MASK + 1 = (low + j.1) % TF_ID_MASK + 1 := by
    simp only [Fin.eta] at hi hj
    rw [hi, hj] at hij
    exact hij
  have hi' : i.1 < n := by have := lowSeq_length n low; omega
  have hj' : j.1 < n := by have := lowSeq_length n low; omega
  apply Fin.ext
  unfold TF_ID_MASK at *
  omega

/-- The ids issued by consecutive originating sends are the peer base plus
the successive low counter values. -/
theorem sendIds_eq (msg : TF_MSG) (hr : msg.is_response = false)
    (hlen : (msg.data.getD []).length ≤ TF_MAX_PAYLOAD_TX) :
    ∀ (n : Nat) (e : Endpoint),
    sendIds e msg n = (lowSeq (e.next_id % TF_ID_PEERBIT) n).map
      (fun low => peerBase e.peer + low) := by
  intro n
  induction n with
  | zero => intro e; rfl
  | succ n ih =>
    intro e
    have hsend : TF_Send e msg Option.none 0 = Except.ok ((genId e).2,
        encodeFrame CksumKind.ckCrc16 (genId e).1 msg.type (msg.data.getD []),
        (genId e).1) := send_none_ok hr hlen
    simp only [sendIds, hsend]
    rw [ih (genId e).2]
    have hpeer : (genId e).2.peer = e.peer := rfl
    have hnext : (genId e).2.next_id = (genId e).1 := genId_next_id e
    have hlow : (genId e).1 % TF_ID_PEERBIT = nextLow (e.next_id % TF_ID_PEERBIT) :=
      (genId_low_bounds e).2.2
    rw [hpeer, hnext, hlow, genId_eq e]
    rfl

/-- Claim C3: the low bits of `next_id` are incremented modulo
`TF_ID_MASK` on each originating `TF_Send`, wrap back to 1 (never to 0)
on overflow, and the identifiers issued by consecutive `TF_Send` calls on
one endpoint are pairwise distinct until the ID space wraps (any run of
at most `TF_ID_MASK` sends has no duplicate id). -/
theorem id_allocation_spec :
    (∀ (e e' : Endpoint) (msg : TF_MSG) (l : Option Nat) (t : Nat) (bs : List Nat)
      (fid : Nat), msg.is_response = false →
      TF_Send e msg l t = Except.ok (e', bs, fid) →
      fid % TF_ID_PEERBIT = nextLow (e.next_id % TF_ID_PEERBIT) ∧
      1 ≤ fid % TF_ID_PEERBIT ∧ fid % TF_ID_PEERBIT ≤ TF_ID_MASK ∧
      (e.next_id % TF_ID_PEERBIT = TF_ID_MASK → fid % TF_ID_PEERBIT = 1)) ∧
    (∀ (e : Endpoint) (msg : TF_MSG) (n : Nat), msg.is_response = false →
      (msg.data.getD []).length ≤ TF_MAX_PAYLOAD_TX → n ≤ TF_ID_MASK →
      (sendIds e msg n).Nodup) := by
  constructor
  · intro e e' msg l t bs fid hr h
    have hf := (send_ok_inv h).1
    rw [if_neg (by simp [hr])] at hf
    have hb := genId_low_bounds e
    refine ⟨by rw [hf]; exact hb.2.2, by rw [hf]; exact hb.1, by rw [hf]; exact hb.2.1, ?_⟩
    intro hwrap
    rw [hf, hb.2.2, nextLow_formula _ (le_of_eq hwrap)]
    rw [hwrap]
    unfold TF_ID_MASK
    omega
  · intro e msg n hr hlen hn
    rw [sendIds_eq msg hr hlen n e]
    apply List.Nodup.map
    · intro a b hab
      exact Nat.add_left_cancel hab
    · exact lowSeq_nodup n (e.next_id % TF_ID_PEERBIT)
        (by unfold TF_ID_PEERBIT TF_ID_MASK; omega) hn

/-- Witness for C3 at concrete inputs. -/
theorem id_allocation_spec_witness :
    (sendIds (TF_Init TF_PEER.TF_MASTER)
      { frame_id := 0, is_response := false, type := 3, data := Option.none,
        len := 0, userdata := Option.none } 5).Nodup := by
  exact id_allocation_spec.2 (TF_Init TF_PEER.TF_MASTER) _ 5 rfl
    (by simp [TF_MAX_PAYLOAD_TX]) (by unfold TF_ID_MASK; omega)

/-- Claim C8: `TF_Send` fails with `Capacity` when the payload exceeds
`TF_MAX_PAYLOAD_TX`, and fails with `TableFull` when a supplied response
listener cannot be registered because the by-ID table is full; in either
case the call produces an error only — no bytes are emitted and no new
endpoint state is produced, so the endpoint (id counter, listener tables,
parser) is unchanged. -/
theorem send_failure_atomic_spec :
    (∀ (e : Endpoint) (msg : TF_MSG) (l : Option Nat) (t : Nat),
      TF_MAX_PAYLOAD_TX < (msg.data.getD []).length →
      TF_Send e msg l t = Except.error SendErr.Capacity) ∧
    (∀ (e : Endpoint) (msg : TF_MSG) (cb t : Nat),
      (msg.data.getD []).length ≤ TF_MAX_PAYLOAD_TX →
      TF_MAX_ID_LST ≤ e.id_table.length →
      TF_Send e msg (Option.some cb) t = Except.error SendErr.TableFull) := by
  constructor
  · intro e msg l t h
    simp only [TF_Send]
    rw [if_pos h]
  · intro e msg cb t hlen hfull
    have htbl : (if msg.is_response then (msg.frame_id, e) else genId e).2.id_table
        = e.id_table := by
      split
      · rfl
      · unfold genId; rfl
    have hadd : ∀ (e0 : Endpoint) (fid0 : Nat), e0.id_table = e.id_table →
        addIdListener e0 fid0 cb msg.userdata t = Option.none := by
      intro e0 fid0 ht
      unfold addIdListener
      rw [ht]
      rw [if_pos hfull]
      split <;> rfl
    simp only [TF_Send]
    rw [if_neg (by omega)]
    rw [hadd _ _ htbl]

/-- Witness for C8 at concrete inputs. -/
theorem send_failure_atomic_spec_witness :
    TF_Send (TF_Init TF_PEER.TF_MASTER)
      { frame_id := 0, is_response := false, type := 1,
        data := Option.some (List.replicate 1025 0), len := 1025,
        userdata := Option.none }
      Option.none 0 = Except.error SendErr.Capacity := by
  exact send_failure_atomic_spec.1 (TF_Init TF_PEER.TF_MASTER) _ Option.none 0
    (by simp only [Option.getD_some, List.length_replicate]; norm_num [TF_MAX_PAYLOAD_TX])

/-! ### Claim C6: parser timeout -/

/-- Invariant of parser states reachable from the initial parser: in the
initial state the parser is fully reset, and the timeout countdown never
exceeds `TF_PARSER_TIMEOUT_TICKS`. -/
def ParserInv (p : Parser) : Prop :=
  (p.st = PState.psof → p = initParser) ∧ p.tmo ≤ TF_PARSER_TIMEOUT_TICKS

theorem parserInv_init : ParserInv initParser :=
  ⟨fun _ => rfl, by decide⟩

theorem acceptChar_inv (p : Parser) (b : Nat) (h : ParserInv p) :
    ParserInv (acceptChar p b).1 := by
  obtain ⟨h1, h2⟩ := h
  unfold ParserInv acceptChar
  cases hst : p.st <;> simp only [] <;> split_ifs <;>
    first
      | exact ⟨fun hc => False.elim hc, h2⟩
      | exact ⟨fun hc => False.elim hc, le_refl TF_PARSER_TIMEOUT_TICKS⟩
      | exact ⟨fun hc => PState.noConfusion hc, h2⟩
      | exact ⟨fun hc => PState.noConfusion hc, le_refl TF_PARSER_TIMEOUT_TICKS⟩
      | exact ⟨fun _ => rfl, Nat.zero_le TF_PARSER_TIMEOUT_TICKS⟩
      | exact ⟨fun _ => h1 hst, h2⟩

theorem parserTick_inv (p : Parser) (h : ParserInv p) : ParserInv (parserTick p) := by
  obtain ⟨h1, h2⟩ := h
  unfold parserTick
  split
  · exact ⟨h1, h2⟩
  · split
    · exact ⟨fun _ => rfl, Nat.zero_le TF_PARSER_TIMEOUT_TICKS⟩
    · next hst htmo =>
      refine ⟨fun hc => absurd hc hst, ?_⟩
      show p.tmo - 1 ≤ TF_PARSER_TIMEOUT_TICKS
      omega

theorem acceptList_inv : ∀ (bs : List Nat) (p : Parser), ParserInv p →
    ParserInv (acceptList p bs).1 := by
  intro bs
  induction bs with
  | nil => intro p h; exact h
  | cons b bs ih =>
    intro p h
    have hinv1 := acceptChar_inv p b h
    cases hac : acceptChar p b with
    | mk p1 m =>
      rw [hac] at hinv1
      cases m with
      | none => simp only [acceptList, hac]; exact ih p1 hinv1
      | some msg => simp only [acceptList, hac]; exact ih p1 hinv1

theorem parserTickN_reaches : ∀ (n : Nat) (p : Parser), ParserInv p → p.tmo ≤ n →
    1 ≤ n → parserTickN n p = initParser := by
  intro n
  induction n with
  | zero => intro p _ _ h; omega
  | succ n ih =>
    intro p hinv htmo hone
    by_cases hn : n = 0
    · subst hn
      show parserTickN 0 (parserTick p) = initParser
      by_cases hst : p.st = PState.psof
      · show parserTick p = initParser
        unfold parserTick
        rw [if_pos hst]
        exact hinv.1 hst
      · show parserTick p = initParser
        unfold parserTick
        rw [if_neg hst, if_pos (by omega)]
        rfl
    · have h1 : ParserInv (parserTick p) := parserTick_inv p hinv
      have h2 : (parserTick p).tmo ≤ n := by
        unfold parserTick
        split
        · next hst =>
          rw [hinv.1 hst]
          show (0 : Nat) ≤ n
          omega
        · split
          · show initParser.tmo ≤ n
            show (0 : Nat) ≤ n
            omega
          · show p.tmo - 1 ≤ n
            omega
      exact ih (parserTick p) h1 h2 (by omega)

/-- Claim C6: on every transition out of the initial decoder state the
parser arms `parser_timeout_remaining = TF_PARSER_TIMEOUT_TICKS`; each
`TF_Tick` call decrements it while a frame is in progress; and after
feeding any (possibly truncated) byte sequence to a fresh decoder,
calling `TF_Tick` at least `TF_PARSER_TIMEOUT_TICKS` times returns the
decoder to the initial state with the partial frame discarded. -/
theorem parser_timeout_spec :
    (∀ (p : Parser) (b : Nat), p.st = PState.psof →
      (acceptChar p b).1.st ≠ PState.psof →
      (acceptChar p b).1.tmo = TF_PARSER_TIMEOUT_TICKS) ∧
    (∀ (e : Endpoint), e.parser.st ≠ PState.psof →
      (TF_Tick e).1.parser.tmo = e.parser.tmo - 1) ∧
    (∀ (bs : List Nat) (n : Nat), TF_PARSER_TIMEOUT_TICKS ≤ n →
      parserTickN n (acceptList initParser bs).1 = initParser) := by
  refine ⟨?_, ?_, ?_⟩
  · intro p b hst hne
    unfold acceptChar at hne ⊢
    rw [hst] at hne ⊢
    simp only [] at hne ⊢
    by_cases hb : b = TF_SOF_BYTE
    · rw [if_pos hb]
    · rw [if_neg hb] at hne
      exact absurd hst hne
  · intro e hne
    show (parserTick e.parser).tmo = e.parser.tmo - 1
    unfold parserTick
    rw [if_neg hne]
    split
    · next htmo =>
      show (0 : Nat) = e.parser.tmo - 1
      omega
    · rfl
  · intro bs n hn
    exact parserTickN_reaches n (acceptList initParser bs).1
      (acceptList_inv bs initParser parserInv_init)
      (by
        have := (acceptList_inv bs initParser parserInv_init).2
        omega)
      (by unfold TF_PARSER_TIMEOUT_TICKS at hn; omega)

/-- Witness for C6 at concrete inputs. -/
theorem parser_timeout_spec_witness :
    (acceptChar initParser 1).1.tmo = TF_PARSER_TIMEOUT_TICKS ∧
    parserTickN 10 (acceptList initParser [1, 129]).1 = initParser :=
  ⟨parser_timeout_spec.1 initParser 1 rfl (by decide),
   parser_timeout_spec.2.2 [1, 129] 10 (by decide)⟩

/-! ### Claim C7: by-ID listener timeout -/

theorem ticksN_empty : ∀ (n : Nat) (e : Endpoint), e.id_table = [] →
    (ticksN e n).2 = [] ∧ (ticksN e n).1.id_table = [] := by
  intro n
  induction n with
  | zero => intro e h; exact ⟨rfl, h⟩
  | succ n ih =>
    intro e h
    have h1 : (TF_Tick e).1.id_table = [] := by
      show ((e.id_table.map sweepSlot).filterMap Prod.fst) = []
      rw [h]
      rfl
    have h2 : (TF_Tick e).2 = [] := by
      show ((e.id_table.map sweepSlot).map Prod.snd).flatten = []
      rw [h]
      rfl
    have hih := ih (TF_Tick e).1 h1
    simp only [ticksN]
    exact ⟨by rw [h2, hih.1]; rfl, hih.2⟩

theorem timeoutMsg_update (s : IdSlot) (x : Nat) :
    timeoutMsg { s with timeout_remaining := x } = timeoutMsg s := rfl

/-- The by-ID slot created for frame id `fid`, callback `cb`, userdata
`ud` and timeout `t` (as built by `addIdListener`). -/
def mkIdSlot (fid cb : Nat) (ud : Option Nat) (t : Nat) : IdSlot :=
  { id := fid
    cb := cb
    userdata := ud
    timeout_remaining := t
    timeout_initial := t }

/-- Behaviour of the tick loop on a table holding exactly one slot with a
nonzero initial timeout: no notification and a decremented countdown
while fewer ticks than the remaining timeout have elapsed; exactly one
sentinel notification and a cleared table once the countdown has run
out. -/
theorem ticksN_single : ∀ (n r : Nat) (e : Endpoint) (s : IdSlot),
    e.id_table = [s] → s.timeout_initial ≠ 0 → s.timeout_remaining = r → 1 ≤ r →
    ((n < r → (ticksN e n).2 = [] ∧
       (ticksN e n).1.id_table = [{ s with timeout_remaining := r - n }]) ∧
     (r ≤ n → (ticksN e n).2 = [(s.cb, timeoutMsg s)] ∧
       (ticksN e n).1.id_table = [])) := by
  intro n
  induction n with
  | zero =>
    intro r e s he hti htr hr
    constructor
    · intro _
      refine ⟨rfl, ?_⟩
      show e.id_table = [{ s with timeout_remaining := r - 0 }]
      rw [he]
      rw [show r - 0 = s.timeout_remaining by omega]
    · intro hc
      omega
  | succ n ih =>
    intro r e s he hti htr hr
    by_cases hone : r = 1
    · have hsw : sweepSlot s = (Option.none, [(s.cb, timeoutMsg s)]) := by
        unfold sweepSlot
        rw [if_neg hti, if_pos (by omega)]
      have h1 : (TF_Tick e).1.id_table = [] := by
        show ((e.id_table.map sweepSlot).filterMap Prod.fst) = []
        rw [he]
        show (sweepSlot s :: []).filterMap Prod.fst = []
        rw [hsw]
        rfl
      have h2 : (TF_Tick e).2 = [(s.cb, timeoutMsg s)] := by
        show ((e.id_table.map sweepSlot).map Prod.snd).flatten = [(s.cb, timeoutMsg s)]
        rw [he]
        show ((sweepSlot s :: []).map Prod.snd).flatten = [(s.cb, timeoutMsg s)]
        rw [hsw]
        rfl
      have hemp := ticksN_empty n (TF_Tick e).1 h1
      constructor
      · intro hc; omega
      · intro _
        simp only [ticksN]
        exact ⟨by rw [h2, hemp.1]; rfl, hemp.2⟩
    · have hsw : sweepSlot s =
          (Option.some { s with timeout_remaining := s.timeout_remaining - 1 }, []) := by
        unfold sweepSlot
        rw [if_neg hti, if_neg (by omega)]
      have h1 : (TF_Tick e).1.id_table = [{ s with timeout_remaining := r - 1 }] := by
        show ((e.id_table.map sweepSlot).filterMap Prod.fst) =
          [{ s with timeout_remaining := r - 1 }]
        rw [he]
        show (sweepSlot s :: []).filterMap Prod.fst = [{ s with timeout_remaining := r - 1 }]
        rw [hsw, htr]
        rfl
      have h2 : (TF_Tick e).2 = [] := by
        show ((e.id_table.map sweepSlot).map Prod.snd).flatten = []
        rw [he]
        show ((sweepSlot s :: []).map Prod.snd).flatten = []
        rw [hsw]
        rfl
      have hih := ih (r - 1) (TF_Tick e).1 { s with timeout_remaining := r - 1 }
        h1 hti rfl (by omega)
      constructor
      · intro hlt
        have := hih.1 (by omega)
        simp only [ticksN]
        refine ⟨by rw [h2, this.1]; rfl, ?_⟩
        rw [this.2]
        rw [show r - 1 - n = r - (n + 1) by omega]
      · intro hle
        have := hih.2 (by omega)
        simp only [ticksN]
        refine ⟨?_, this.2⟩
        rw [h2, this.1, timeoutMsg_update]
        rfl

/-- Claim C7: a by-ID listener registered with timeout `T > 0` whose id
matches no inbound frame has its callback notified exactly once, after
exactly `T` `TF_Tick` calls, with the sentinel no-payload message (NULL
data, zero length, type 0, the original frame id and userdata), and the
slot is cleared afterwards; if a matching frame arrives first and is
consumed, no timeout notification ever occurs. -/
theorem id_listener_timeout_spec :
    ∀ (e0 e1 : Endpoint) (msg : TF_MSG) (cb T : Nat), 0 < T → e0.id_table = [] →
    TF_AddIdListener e0 msg cb T = Option.some e1 →
    ((ticksN e1 (T - 1)).2 = [] ∧
     (∀ (n : Nat), T ≤ n →
       (ticksN e1 n).2 = [(cb, { frame_id := msg.frame_id, is_response := false,
                                 type := 0, data := Option.none, len := 0,
                                 userdata := msg.userdata })] ∧
       (ticksN e1 n).1.id_table = []) ∧
     (∀ (env : Nat → TF_MSG → Bool) (m : TF_MSG), m.frame_id = msg.frame_id →
       env cb { m with userdata := msg.userdata } = true →
       ∀ (n : Nat), (ticksN (dispatchMsg env e1 m).1 n).2 = [])) := by
  intro e0 e1 msg cb T hT he0 hadd
  have he1 : e1 = { e0 with id_table := [mkIdSlot msg.frame_id cb msg.userdata T] } := by
    unfold TF_AddIdListener addIdListener at hadd
    rw [he0] at hadd
    simp only [List.any_nil, List.length_nil] at hadd
    rw [if_neg (by simp), if_neg (by unfold TF_MAX_ID_LST; omega)] at hadd
    have := Option.some.inj hadd
    rw [← this]
    rfl
  have hslot : e1.id_table = [mkIdSlot msg.frame_id cb msg.userdata T] := by
    rw [he1]
  have hsingle := fun (n r : Nat) => ticksN_single n r e1
    (mkIdSlot msg.frame_id cb msg.userdata T)
  refine ⟨?_, ?_, ?_⟩
  · by_cases hT1 : T = 1
    · subst hT1; rfl
    · exact ((hsingle (T - 1) T hslot (by show T ≠ 0; omega) rfl
        (by omega)).1 (by omega)).1
  · intro n hn
    exact (hsingle n T hslot (by show T ≠ 0; omega) rfl (by omega)).2 hn
  · intro env m hm henv n
    have hdisp : (dispatchMsg env e1 m).1.id_table = [] := by
      unfold dispatchMsg
      rw [hslot]
      have hfind : List.find? (fun s => s.id = m.frame_id)
          [mkIdSlot msg.frame_id cb msg.userdata T] =
          Option.some (mkIdSlot msg.frame_id cb msg.userdata T) := by
        rw [List.find?_cons_of_pos]
        simp [mkIdSlot, hm]
      rw [hfind]
      simp only []
      rw [if_pos (by rw [hm] at henv ⊢; exact henv)]
      show removeIdSlot [mkIdSlot msg.frame_id cb msg.userdata T] m.frame_id = []
      unfold removeIdSlot
      rw [List.filter_cons_of_neg]
      · rfl
      · simp [mkIdSlot, hm]
    exact (ticksN_empty n (dispatchMsg env e1 m).1 hdisp).1

/-- Witness for C7 at concrete inputs. -/
theorem id_listener_timeout_spec_witness :
    (ticksN { TF_Init TF_PEER.TF_MASTER with
              id_table := [mkIdSlot 7 4 (Option.some 9) 3] } 3).2 =
      [(4, { frame_id := 7, is_response := false, type := 0, data := Option.none,
             len := 0, userdata := Option.some 9 })] ∧
    (ticksN { TF_Init TF_PEER.TF_MASTER with
              id_table := [mkIdSlot 7 4 (Option.some 9) 3] } 3).1.id_table
      = [] := by
  exact (id_listener_timeout_spec (TF_Init TF_PEER.TF_MASTER) _
    { frame_id := 7, is_response := false, type := 0, data := Option.none,
      len := 0, userdata := Option.some 9 } 4 3 (by omega) rfl rfl).2.1 3 (by omega)

/-! ### Claim C5: dispatch priority -/

theorem dispatchGeneric_all_false (env : Nat → TF_MSG → Bool) (m : TF_MSG) :
    ∀ (gens : List Nat), (∀ cb ∈ gens, env cb m = false) →
    dispatchGeneric env gens m = gens := by
  intro gens
  induction gens with
  | nil => intro _; rfl
  | cons cb rest ih =>
    intro h
    unfold dispatchGeneric
    rw [if_neg (by rw [h cb (by simp)]; simp)]
    rw [ih (fun c hc => h c (by simp [hc]))]

/-- Claim C5: a completed, checksum-verified frame that simultaneously
matches a live by-ID listener, a live by-type listener and a generic
listener invokes only the by-ID listener's callback; without a by-ID
match a frame matching a by-type listener invokes only that listener
(never a generic one); and a frame that no listener claims leaves the
endpoint unchanged (silently dropped). -/
theorem dispatch_priority_spec :
    (∀ (env : Nat → TF_MSG → Bool) (e : Endpoint) (m : TF_MSG),
      (∃ s ∈ e.id_table, s.id = m.frame_id) →
      (∃ ts ∈ e.type_table, ts.type = m.type) →
      e.gen_table ≠ [] →
      ∃ s, e.id_table.find? (fun s => s.id = m.frame_id) = Option.some s ∧
        (dispatchMsg env e m).2 = [s.cb]) ∧
    (∀ (env : Nat → TF_MSG → Bool) (e : Endpoint) (m : TF_MSG),
      e.id_table.find? (fun s => s.id = m.frame_id) = Option.none →
      (∃ ts ∈ e.type_table, ts.type = m.type) →
      ∃ ts, e.type_table.find? (fun s => s.type = m.type) = Option.some ts ∧
        (dispatchMsg env e m).2 = [ts.cb]) ∧
    (∀ (env : Nat → TF_MSG → Bool) (e : Endpoint) (m : TF_MSG),
      e.id_table.find? (fun s => s.id = m.frame_id) = Option.none →
      e.type_table.find? (fun s => s.type = m.type) = Option.none →
      (∀ cb ∈ e.gen_table, env cb m = false) →
      (dispatchMsg env e m).1 = e ∧ (dispatchMsg env e m).2 = e.gen_table) := by
  refine ⟨?_, ?_, ?_⟩
  · intro env e m hid _ _
    have hsome : (e.id_table.find? (fun s => s.id = m.frame_id)).isSome := by
      rw [List.find?_isSome]
      obtain ⟨s, hs, hsid⟩ := hid
      exact ⟨s, hs, by simp [hsid]⟩
    obtain ⟨s, hfind⟩ := Option.isSome_iff_exists.mp hsome
    refine ⟨s, hfind, ?_⟩
    unfold dispatchMsg
    simp only [hfind]
    split_ifs <;> rfl
  · intro env e m hid hty
    have hsome : (e.type_table.find? (fun s => s.type = m.type)).isSome := by
      rw [List.find?_isSome]
      obtain ⟨ts, hs, hsid⟩ := hty
      exact ⟨ts, hs, by simp [hsid]⟩
    obtain ⟨ts, hfind⟩ := Option.isSome_iff_exists.mp hsome
    refine ⟨ts, hfind, ?_⟩
    unfold dispatchMsg
    simp only [hid, hfind]
  · intro env e m hid hty hgen
    unfold dispatchMsg
    simp only [hid, hty]
    exact ⟨by trivial, dispatchGeneric_all_false env m e.gen_table hgen⟩

/-- Witness for C5 at concrete inputs. -/
theorem dispatch_priority_spec_witness :
    ∃ s, (({ TF_Init TF_PEER.TF_MASTER with
             id_table := [mkIdSlot 5 11 Option.none 0],
             type_table := [{ type := 2, cb := 12 }],
             gen_table := [13] } : Endpoint)).id_table.find?
          (fun s => s.id = 5) = Option.some s ∧
      (dispatchMsg (fun _ _ => true)
        { TF_Init TF_PEER.TF_MASTER with
          id_table := [mkIdSlot 5 11 Option.none 0],
          type_table := [{ type := 2, cb := 12 }],
          gen_table := [13] }
        { frame_id := 5, is_response := false, type := 2,
          data := Option.some [], len := 0, userdata := Option.none }).2 = [s.cb] := by
  exact dispatch_priority_spec.1 (fun _ _ => true)
    { TF_Init TF_PEER.TF_MASTER with
      id_table := [mkIdSlot 5 11 Option.none 0],
      type_table := [{ type := 2, cb := 12 }],
      gen_table := [13] }
    { frame_id := 5, is_response := false, type := 2,
      data := Option.some [], len := 0, userdata := Option.none }
    ⟨mkIdSlot 5 11 Option.none 0, by simp, rfl⟩
    ⟨{ type := 2, cb := 12 }, by simp, rfl⟩
    (by simp)

/-! ### Claim C4: by-ID table uniqueness -/

theorem idsUnique_of_table_eq {e e' : Endpoint} (h : e'.id_table = e.id_table)
    (hu : idsUnique e) : idsUnique e' := by
  unfold idsUnique at *
  rw [h]
  exact hu

theorem idsUnique_filter (e : Endpoint) (p : IdSlot → Bool) (hu : idsUnique e) :
    (e.id_table.filter p).Pairwise (fun a b => a.id ≠ b.id) :=
  hu.sublist (List.filter_sublist e.id_table)

theorem pairwise_map_id_preserving (f : IdSlot → IdSlot) (hf : ∀ s, (f s).id = s.id)
    (l : List IdSlot) (h : l.Pairwise (fun a b => a.id ≠ b.id)) :
    (l.map f).Pairwise (fun a b => a.id ≠ b.id) := by
  rw [List.pairwise_map]
  refine List.Pairwise.imp ?_ h
  intro a b hab
  rw [hf, hf]
  exact hab

theorem pairwise_filterMap_id_preserving (f : IdSlot → Option IdSlot)
    (hf : ∀ s t, f s = Option.some t → t.id = s.id) :
    ∀ (l : List IdSlot), l.Pairwise (fun a b => a.id ≠ b.id) →
    (l.filterMap f).Pairwise (fun a b => a.id ≠ b.id) := by
  intro l
  induction l with
  | nil => intro _; exact List.Pairwise.nil
  | cons a as ih =>
    intro h
    rw [List.pairwise_cons] at h
    cases hfa : f a with
    | none => simp only [List.filterMap_cons, hfa]; exact ih h.2
    | some b =>
      simp only [List.filterMap_cons, hfa]
      rw [List.pairwise_cons]
      constructor
      · intro c hc
        obtain ⟨s, hs, hfs⟩ := List.mem_filterMap.mp hc
        rw [hf a b hfa, hf s c hfs]
        exact h.1 s hs
      · exact ih h.2

theorem idsUnique_renew (e : Endpoint) (fid : Nat) (hu : idsUnique e) :
    idsUnique (renewIdListener e fid) := by
  unfold idsUnique renewIdListener at *
  refine pairwise_map_id_preserving _ ?_ _ hu
  intro s
  split <;> rfl

theorem idsUnique_add {e e' : Endpoint} {fid cb : Nat} {ud : Option Nat} {t : Nat}
    (hu : idsUnique e) (hadd : addIdListener e fid cb ud t = Option.some e') :
    idsUnique e' := by
  unfold addIdListener at hadd
  split at hadd
  · exact absurd hadd (by simp)
  · next hdup =>
    split at hadd
    · exact absurd hadd (by simp)
    · have he' := Option.some.inj hadd
      unfold idsUnique
      rw [← he']
      show (e.id_table ++ [mkIdSlot fid cb ud t]).Pairwise (fun a b => a.id ≠ b.id)
      rw [List.pairwise_append]
      refine ⟨hu, List.pairwise_singleton _ _, ?_⟩
      intro a ha b hb
      rw [List.mem_singleton] at hb
      rw [hb]
      intro hcontra
      apply hdup
      rw [List.any_eq_true]
      exact ⟨a, ha, by simp [mkIdSlot, hcontra]⟩

/-- The by-ID table of a successful `TF_Send` result: either unchanged,
or produced by a successful `addIdListener` on an endpoint with the same
table. -/
theorem send_ok_idtable {e e' : Endpoint} {msg : TF_MSG} {l : Option Nat} {t : Nat}
    {bs : List Nat} {fid : Nat}
    (h : TF_Send e msg l t = Except.ok (e', bs, fid)) :
    e'.id_table = e.id_table ∨
    ∃ (e0 : Endpoint) (cb : Nat), e0.id_table = e.id_table ∧
      addIdListener e0 fid cb msg.userdata t = Option.some e' := by
  cases l with
  | none =>
    left
    simp only [TF_Send] at h
    by_cases hcap : TF_MAX_PAYLOAD_TX < (msg.data.getD []).length
    · rw [if_pos hcap] at h; exact absurd h (by simp)
    · rw [if_neg hcap] at h
      by_cases hr : msg.is_response = true
      · simp only [if_pos hr] at h
        simp only [Except.ok.injEq, Prod.mk.injEq] at h
        rw [← h.1]
      · simp only [if_neg hr] at h
        simp only [Except.ok.injEq, Prod.mk.injEq] at h
        rw [← h.1]
        rfl
  | some cb =>
    simp only [TF_Send] at h
    by_cases hcap : TF_MAX_PAYLOAD_TX < (msg.data.getD []).length
    · rw [if_pos hcap] at h; exact absurd h (by simp)
    · rw [if_neg hcap] at h
      by_cases hr : msg.is_response = true
      · simp only [if_pos hr] at h
        replace h : (match addIdListener e msg.frame_id cb msg.userdata t with
          | Option.none => Except.error SendErr.TableFull
          | Option.some e2 => Except.ok (e2,
              encodeFrame CksumKind.ckCrc16 msg.frame_id msg.type (msg.data.getD []),
              msg.frame_id)) = Except.ok (e', bs, fid) := h
        cases hadd : addIdListener e msg.frame_id cb msg.userdata t with
        | none => rw [hadd] at h; exact absurd h (by simp)
        | some e2 =>
          rw [hadd] at h
          simp only [Except.ok.injEq, Prod.mk.injEq] at h
          right
          refine ⟨e, cb, rfl, ?_⟩
          rw [← h.2.2, hadd, h.1]
      · simp only [if_neg hr] at h
        replace h : (match addIdListener (genId e).2 (genId e).1 cb msg.userdata t with
          | Option.none => Except.error SendErr.TableFull
          | Option.some e2 => Except.ok (e2,
              encodeFrame CksumKind.ckCrc16 (genId e).1 msg.type (msg.data.getD []),
              (genId e).1)) = Except.ok (e', bs, fid) := h
        cases hadd : addIdListener (genId e).2 (genId e).1 cb msg.userdata t with
        | none => rw [hadd] at h; exact absurd h (by simp)
        | some e2 =>
          rw [hadd] at h
          simp only [Except.ok.injEq, Prod.mk.injEq] at h
          right
          refine ⟨(genId e).2, cb, rfl, ?_⟩
          rw [← h.2.2, hadd, h.1]

theorem idsUnique_send {e e' : Endpoint} {msg : TF_MSG} {l : Option Nat} {t : Nat}
    {bs : List Nat} {fid : Nat} (hu : idsUnique e)
    (h : TF_Send e msg l t = Except.ok (e', bs, fid)) : idsUnique e' := by
  cases send_ok_idtable h with
  | inl htbl => exact idsUnique_of_table_eq htbl hu
  | inr hadd =>
    obtain ⟨e0, cb, htbl, hadd⟩ := hadd
    exact idsUnique_add (idsUnique_of_table_eq htbl hu) hadd

theorem idsUnique_dispatch (env : Nat → TF_MSG → Bool) (e : Endpoint) (m : TF_MSG)
    (hu : idsUnique e) : idsUnique (dispatchMsg env e m).1 := by
  unfold dispatchMsg
  cases hfind : e.id_table.find? (fun s => s.id = m.frame_id) with
  | some s =>
    simp only [hfind]
    split_ifs
    · exact idsUnique_filter e _ hu
    · exact idsUnique_renew e m.frame_id hu
    · exact hu
  | none =>
    simp only [hfind]
    cases hty : e.type_table.find? (fun s => s.type = m.type) with
    | some ts => simp only [hty]; exact hu
    | none => simp only [hty]; exact hu

theorem idsUnique_accept (env : Nat → TF_MSG → Bool) :
    ∀ (bs : List Nat) (e : Endpoint), idsUnique e → idsUnique (TF_Accept env e bs).1 := by
  intro bs
  induction bs with
  | nil => intro e hu; exact hu
  | cons b bs ih =>
    intro e hu
    cases hac : acceptChar e.parser b with
    | mk p1 m =>
      cases m with
      | none =>
        simp only [TF_Accept, hac]
        exact ih { e with parser := p1 } hu
      | some msg =>
        simp only [TF_Accept, hac]
        exact ih _ (idsUnique_dispatch env { e with parser := p1 } msg hu)

theorem idsUnique_tick (e : Endpoint) (hu : idsUnique e) : idsUnique (TF_Tick e).1 := by
  show ((e.id_table.map sweepSlot).filterMap Prod.fst).Pairwise (fun a b => a.id ≠ b.id)
  rw [List.filterMap_map]
  refine pairwise_filterMap_id_preserving _ ?_ _ hu
  intro s u hsu
  simp only [Function.comp] at hsu
  unfold sweepSlot at hsu
  split_ifs at hsu
  · rw [← Option.some.inj hsu]
  · rw [← Option.some.inj hsu]

/-- Every reachable endpoint state has a duplicate-free by-ID table. -/
theorem idsUnique_reachable : ∀ (e : Endpoint), Reachable e → idsUnique e := by
  intro e h
  induction h with
  | init peer => exact List.Pairwise.nil
  | sendOk msg l t _ hok ih => exact idsUnique_send ih hok
  | respondOk msg renew _ hok ih =>
    unfold TF_Respond at hok
    refine idsUnique_send ?_ hok
    split
    · exact idsUnique_renew _ msg.frame_id ih
    · exact ih
  | addId msg cb t _ hok ih => exact idsUnique_add ih hok
  | removeId fid _ ih => exact idsUnique_filter _ _ ih
  | renewL fid _ ih => exact idsUnique_renew _ fid ih
  | addType ty cb _ hok ih =>
    unfold TF_AddTypeListener at hok
    split at hok
    · exact absurd hok (by simp)
    · exact idsUnique_of_table_eq (by rw [← Option.some.inj hok]) ih
  | removeType ty _ ih => exact idsUnique_of_table_eq rfl ih
  | addGen cb _ hok ih =>
    unfold TF_AddGenericListener at hok
    split at hok
    · exact absurd hok (by simp)
    · exact idsUnique_of_table_eq (by rw [← Option.some.inj hok]) ih
  | removeGen cb _ ih => exact idsUnique_of_table_eq rfl ih
  | resetP _ ih => exact idsUnique_of_table_eq rfl ih
  | accept env bs _ ih => exact idsUnique_accept env bs _ ih
  | tick _ ih => exact idsUnique_tick _ ih

/-- Claim C4: in every reachable endpoint state at most one by-ID
listener slot references a given frame id (the table is pairwise
distinct in ids); `TF_AddIdListener` for an id that already has a live
slot fails, returning no changed state (the existing slot is neither
evicted nor overwritten); and a `TF_Send` supplying a response listener
whose generated id is already occupied fails with `TableFull`. -/
theorem id_table_unique_spec :
    (∀ (e : Endpoint), Reachable e → idsUnique e) ∧
    (∀ (e : Endpoint) (msg : TF_MSG) (cb t : Nat),
      (∃ s ∈ e.id_table, s.id = msg.frame_id) →
      TF_AddIdListener e msg cb t = Option.none) ∧
    (∀ (e : Endpoint) (msg : TF_MSG) (cb t : Nat), msg.is_response = false →
      (msg.data.getD []).length ≤ TF_MAX_PAYLOAD_TX →
      (∃ s ∈ e.id_table, s.id = (genId e).1) →
      TF_Send e msg (Option.some cb) t = Except.error SendErr.TableFull) := by
  refine ⟨idsUnique_reachable, ?_, ?_⟩
  · intro e msg cb t hdup
    unfold TF_AddIdListener addIdListener
    rw [if_pos ?_]
    rw [List.any_eq_true]
    obtain ⟨s, hs, hid⟩ := hdup
    exact ⟨s, hs, by simp [hid]⟩
  · intro e msg cb t hr hlen hdup
    simp only [TF_Send]
    rw [if_neg (by omega), if_neg (by simp [hr])]
    have hadd : addIdListener (genId e).2 (genId e).1 cb msg.userdata t = Option.none := by
      unfold addIdListener
      rw [if_pos ?_]
      rw [List.any_eq_true]
      obtain ⟨s, hs, hid⟩ := hdup
      refine ⟨s, ?_, by simp [hid]⟩
      show s ∈ e.id_table
      exact hs
    rw [hadd]

/-- Witness for C4 at concrete inputs. -/
theorem id_table_unique_spec_witness :
    idsUnique (TF_Init TF_PEER.TF_SLAVE) ∧
    TF_AddIdListener { TF_Init TF_PEER.TF_MASTER with
        id_table := [mkIdSlot 9 1 Option.none 0] }
      { frame_id := 9, is_response := false, type := 0, data := Option.none,
        len := 0, userdata := Option.none } 2 5 = Option.none := by
  refine ⟨id_table_unique_spec.1 _ (Reachable.init TF_PEER.TF_SLAVE), ?_⟩
  exact id_table_unique_spec.2.1 _ _ 2 5 ⟨mkIdSlot 9 1 Option.none 0, by simp, rfl⟩

/-! ### Codec groundwork for the round-trip claims -/

theorem crc16Bit_lt {r : Nat} (h : r < 65536) : crc16Bit r < 65536 := by
  unfold crc16Bit
  split
  · have h1 : r / 2 < 2 ^ 16 := by omega
    have h2 : (0xA001 : Nat) < 2 ^ 16 := by norm_num
    have := Nat.xor_lt_two_pow h1 h2
    omega
  · omega

theorem crcBits_crc16_lt : ∀ (n : Nat) {r : Nat}, r < 65536 →
    crcBits n crc16Bit r < 65536 := by
  intro n
  induction n with
  | zero => intro r h; exact h
  | succ n ih => intro r h; exact ih (crc16Bit_lt h)

theorem crc16Byte_lt {r b : Nat} (hr : r < 65536) (hb : b < 256) :
    crc16Byte r b < 65536 := by
  unfold crc16Byte
  apply crcBits_crc16_lt
  have h1 : r < 2 ^ 16 := by omega
  have h2 : b < 2 ^ 16 := by omega
  have := Nat.xor_lt_two_pow h1 h2
  omega

theorem crcFold_lt : ∀ (bs : List Nat) (r : Nat), r < 65536 → (∀ b ∈ bs, b < 256) →
    List.foldl (cksumUpdate CksumKind.ckCrc16) r bs < 65536 := by
  intro bs
  induction bs with
  | nil => intro r h _; exact h
  | cons b bs ih =>
    intro r h hb
    show List.foldl (cksumUpdate CksumKind.ckCrc16) (cksumUpdate CksumKind.ckCrc16 r b) bs < 65536
    exact ih _ (crc16Byte_lt h (hb b (by simp))) (fun c hc => hb c (by simp [hc]))

theorem beBytes_one (v : Nat) : beBytes 1 v = [v % 256] := rfl

theorem beBytes_two (v : Nat) : beBytes 2 v = [v / 256 % 256, v % 256] := rfl

/-- The five header bytes (SOF, ID, LEN hi, LEN lo, TYPE) covered by the
header checksum, at the header's fixed configuration. -/
def hdrBytes (fid len typ : Nat) : List Nat :=
  [TF_SOF_BYTE, fid % 256, len / 256 % 256, len % 256, typ % 256]

/-- The header checksum value at the CRC-16 configuration. -/
def hdrCrc (fid len typ : Nat) : Nat :=
  List.foldl (cksumUpdate CksumKind.ckCrc16) (cksumInit CksumKind.ckCrc16)
    (hdrBytes fid len typ)

theorem hdrCrc_lt (fid len typ : Nat) : hdrCrc fid len typ < 65536 := by
  unfold hdrCrc
  apply crcFold_lt
  · norm_num [cksumInit]
  · intro b hb
    unfold hdrBytes at hb
    simp only [TF_SOF_BYTE, List.mem_cons, List.not_mem_nil, or_false] at hb
    rcases hb with h | h | h | h | h <;> subst h <;> omega

theorem frameHeader_crc16 (fid len typ : Nat) :
    frameHeader CksumKind.ckCrc16 fid len typ =
      hdrBytes fid len typ ++ beBytes 2 (cksumOf CksumKind.ckCrc16 (hdrBytes fid len typ)) := by
  unfold frameHeader hdrBytes
  norm_num [TF_ID_BYTES, TF_LEN_BYTES, TF_TYPE_BYTES, beBytes_one, beBytes_two, cksumBytes]
  intro hcontra
  exact absurd hcontra (by decide)

theorem cksumOf_crc16 (bs : List Nat) :
    cksumOf CksumKind.ckCrc16 bs =
      List.foldl (cksumUpdate CksumKind.ckCrc16) (cksumInit CksumKind.ckCrc16) bs := rfl

/-! Single-step decoder lemmas. -/

theorem acceptList_cons_none {p p1 : Parser} {b : Nat} {bs : List Nat}
    (h : acceptChar p b = (p1, Option.none)) :
    acceptList p (b :: bs) = acceptList p1 bs := by
  simp only [acceptList, h]

theorem acceptList_cons_some {p p1 : Parser} {b : Nat} {m : TF_MSG} {bs : List Nat}
    (h : acceptChar p b = (p1, Option.some m)) :
    acceptList p (b :: bs) = ((acceptList p1 bs).1, m :: (acceptList p1 bs).2) := by
  simp only [acceptList, h]

theorem stepE_psof (cnt acc id len typ hcrc pcrc : Nat) (buf : List Nat) (tmo : Nat) :
    acceptChar ⟨PState.psof, cnt, acc, id, len, typ, hcrc, pcrc, buf, tmo⟩ TF_SOF_BYTE =
      (⟨PState.pid, TF_ID_BYTES, 0, id, len, typ,
        cksumUpdate CksumKind.ckCrc16 (cksumInit CksumKind.ckCrc16) TF_SOF_BYTE, pcrc, buf,
        TF_PARSER_TIMEOUT_TICKS⟩, Option.none) := by
  unfold acceptChar
  simp

theorem stepE_pid1 (cnt acc id len typ hcrc pcrc : Nat) (buf : List Nat) (tmo b : Nat)
    (hc : cnt ≤ 1) :
    acceptChar ⟨PState.pid, cnt, acc, id, len, typ, hcrc, pcrc, buf, tmo⟩ b =
      (⟨PState.plen, TF_LEN_BYTES, 0, acc * 256 + b, len, typ,
        cksumUpdate CksumKind.ckCrc16 hcrc b, pcrc, buf, tmo⟩, Option.none) := by
  unfold acceptChar
  simp only [if_pos hc]

theorem stepE_plen_more (cnt acc id len typ hcrc pcrc : Nat) (buf : List Nat) (tmo b : Nat)
    (hc : ¬ cnt ≤ 1) :
    acceptChar ⟨PState.plen, cnt, acc, id, len, typ, hcrc, pcrc, buf, tmo⟩ b =
      (⟨PState.plen, cnt - 1, acc * 256 + b, id, len, typ,
        cksumUpdate CksumKind.ckCrc16 hcrc b, pcrc, buf, tmo⟩, Option.none) := by
  unfold acceptChar
  simp only [if_neg hc]

theorem stepE_plen1 (cnt acc id len typ hcrc pcrc : Nat) (buf : List Nat) (tmo b : Nat)
    (hc : cnt ≤ 1) :
    acceptChar ⟨PState.plen, cnt, acc, id, len, typ, hcrc, pcrc, buf, tmo⟩ b =
      (⟨PState.ptype, TF_TYPE_BYTES, 0, id, acc * 256 + b, typ,
        cksumUpdate CksumKind.ckCrc16 hcrc b, pcrc, buf, tmo⟩, Option.none) := by
  unfold acceptChar
  simp only [if_pos hc]

theorem stepE_ptype1 (cnt acc id len typ hcrc pcrc : Nat) (buf : List Nat) (tmo b : Nat)
    (hc : cnt ≤ 1) :
    acceptChar ⟨PState.ptype, cnt, acc, id, len, typ, hcrc, pcrc, buf, tmo⟩ b =
      (⟨PState.phck, cksumBytes CksumKind.ckCrc16, 0, id, len, acc * 256 + b,
        cksumUpdate CksumKind.ckCrc16 hcrc b, pcrc, buf, tmo⟩, Option.none) := by
  unfold acceptChar
  simp only [if_pos hc]

theorem stepE_phck_more (cnt acc id len typ hcrc pcrc : Nat) (buf : List Nat) (tmo b : Nat)
    (hc : ¬ cnt ≤ 1) :
    acceptChar ⟨PState.phck, cnt, acc, id, len, typ, hcrc, pcrc, buf, tmo⟩ b =
      (⟨PState.phck, cnt - 1, acc * 256 + b, id, len, typ, hcrc, pcrc, buf, tmo⟩,
        Option.none) := by
  unfold acceptChar
  simp only [if_neg hc]

theorem stepE_phck1_data (cnt acc id len typ hcrc pcrc : Nat) (buf : List Nat) (tmo b : Nat)
    (hc : cnt ≤ 1) (hok : acc * 256 + b = hcrc) (hlen0 : ¬ len = 0)
    (hmax : ¬ TF_MAX_PAYLOAD_RX < len) :
    acceptChar ⟨PState.phck, cnt, acc, id, len, typ, hcrc, pcrc, buf, tmo⟩ b =
      (⟨PState.pdata, len, 0, id, len, typ, hcrc, cksumInit CksumKind.ckCrc16, [], tmo⟩,
        Option.none) := by
  unfold acceptChar
  simp only [if_pos hc]
  rw [if_pos (show acc * 256 + b = cksumFinal CksumKind.ckCrc16 hcrc from hok)]
  rw [if_neg hlen0, if_neg hmax]

theorem stepE_phck1_done (cnt acc id len typ hcrc pcrc : Nat) (buf : List Nat) (tmo b : Nat)
    (hc : cnt ≤ 1) (hok : acc * 256 + b = hcrc) (hlen0 : len = 0) :
    acceptChar ⟨PState.phck, cnt, acc, id, len, typ, hcrc, pcrc, buf, tmo⟩ b =
      (initParser,
        Option.some { frame_id := id, is_response := false, type := typ,
                      data := Option.some [], len := 0, userdata := Option.none }) := by
  unfold acceptChar
  simp only [if_pos hc]
  rw [if_pos (show acc * 256 + b = cksumFinal CksumKind.ckCrc16 hcrc from hok)]
  rw [if_pos hlen0]
  rfl

theorem step_pdata_more {p : Parser} (b : Nat) (h : p.st = PState.pdata) (hc : ¬ p.cnt ≤ 1) :
    acceptChar p b =
      ({ p with
          cnt := p.cnt - 1, buf := p.buf ++ [b],
          pcrc := cksumUpdate CksumKind.ckCrc16 p.pcrc b }, Option.none) := by
  unfold acceptChar
  rw [h]
  simp only [if_neg hc]

theorem step_pdata1 {p : Parser} (b : Nat) (h : p.st = PState.pdata) (hc : p.cnt ≤ 1) :
    acceptChar p b =
      ({ p with
          st := PState.ppck, cnt := cksumBytes CksumKind.ckCrc16, acc := 0,
          buf := p.buf ++ [b],
          pcrc := cksumUpdate CksumKind.ckCrc16 p.pcrc b }, Option.none) := by
  unfold acceptChar
  rw [h]
  simp only [if_pos hc]

theorem step_ppck_more {p : Parser} (b : Nat) (h : p.st = PState.ppck) (hc : ¬ p.cnt ≤ 1) :
    acceptChar p b =
      ({ p with cnt := p.cnt - 1, acc := p.acc * 256 + b }, Option.none) := by
  unfold acceptChar
  rw [h]
  simp only [if_neg hc]

theorem step_ppck1_done {p : Parser} (b : Nat) (h : p.st = PState.ppck) (hc : p.cnt ≤ 1)
    (hok : p.acc * 256 + b = p.pcrc) :
    acceptChar p b = (initParser,
      Option.some { frame_id := p.id, is_response := false, type := p.typ,
                    data := Option.some p.buf, len := p.buf.length,
                    userdata := Option.none }) := by
  unfold acceptChar
  rw [h]
  simp only [if_pos hc]
  rw [if_pos (show p.acc * 256 + b = cksumFinal CksumKind.ckCrc16 p.pcrc from hok)]
  rfl

/-! ### Decoder traces over a complete encoded frame -/

/-- The decoder state after a complete, verified header announcing a
nonzero payload length. -/
def pdataParser (fid len typ : Nat) : Parser :=
  { st := PState.pdata
    cnt := len
    acc := 0
    id := fid % 256
    len := len
    typ := typ % 256
    hcrc := hdrCrc fid len typ
    pcrc := cksumInit CksumKind.ckCrc16
    buf := []
    tmo := TF_PARSER_TIMEOUT_TICKS }

/-- Feeding a complete CRC-16 header that announces a nonzero, in-range
payload length takes the fresh decoder to the payload-collection state. -/
theorem header_trace_pos (fid len typ : Nat) (hlen : 0 < len)
    (hmax : len ≤ TF_MAX_PAYLOAD_RX) (hlen16 : len < 65536) (rest : List Nat) :
    acceptList initParser (frameHeader CksumKind.ckCrc16 fid len typ ++ rest) =
      acceptList (pdataParser fid len typ) rest := by
  rw [frameHeader_crc16, cksumOf_crc16]
  show acceptList initParser (TF_SOF_BYTE :: fid % 256 :: len / 256 % 256 :: len % 256 ::
    typ % 256 :: hdrCrc fid len typ / 256 % 256 :: hdrCrc fid len typ % 256 :: rest) = _
  refine (acceptList_cons_none (stepE_psof 0 0 0 0 0 0 0 [] 0)).trans ?_
  refine (acceptList_cons_none (stepE_pid1 _ _ _ _ _ _ _ _ _ _ (by decide))).trans ?_
  refine (acceptList_cons_none (stepE_plen_more _ _ _ _ _ _ _ _ _ _ (by decide))).trans ?_
  refine (acceptList_cons_none (stepE_plen1 _ _ _ _ _ _ _ _ _ _ (by decide))).trans ?_
  refine (acceptList_cons_none (stepE_ptype1 _ _ _ _ _ _ _ _ _ _ (by decide))).trans ?_
  refine (acceptList_cons_none (stepE_phck_more _ _ _ _ _ _ _ _ _ _ (by decide))).trans ?_
  refine (acceptList_cons_none (stepE_phck1_data _ _ _ _ _ _ _ _ _ _ (by decide)
    (by
      show (0 * 256 + hdrCrc fid len typ / 256 % 256) * 256 + hdrCrc fid len typ % 256 =
        hdrCrc fid len typ
      have := hdrCrc_lt fid len typ
      omega)
    (by omega)
    (by unfold TF_MAX_PAYLOAD_RX at *; omega))).trans ?_
  have h1 : (0 * 256 + len / 256 % 256) * 256 + len % 256 = len := by omega
  have h2 : 0 * 256 + fid % 256 = fid % 256 := by omega
  have h3 : 0 * 256 + typ % 256 = typ % 256 := by omega
  rw [h1, h2, h3]
  rfl

/-- Feeding a complete CRC-16 header that announces a zero payload length
delivers the empty-payload message immediately after the header checksum
and returns the decoder to the initial state. -/
theorem header_trace_zero (fid typ : Nat) (rest : List Nat) :
    acceptList initParser (frameHeader CksumKind.ckCrc16 fid 0 typ ++ rest) =
      ((acceptList initParser rest).1,
        { frame_id := fid % 256, is_response := false, type := typ % 256,
          data := Option.some [], len := 0,
          userdata := Option.none } :: (acceptList initParser rest).2) := by
  rw [frameHeader_crc16, cksumOf_crc16]
  show acceptList initParser (TF_SOF_BYTE :: fid % 256 :: 0 / 256 % 256 :: 0 % 256 ::
    typ % 256 :: hdrCrc fid 0 typ / 256 % 256 :: hdrCrc fid 0 typ % 256 :: rest) = _
  refine (acceptList_cons_none (stepE_psof 0 0 0 0 0 0 0 [] 0)).trans ?_
  refine (acceptList_cons_none (stepE_pid1 _ _ _ _ _ _ _ _ _ _ (by decide))).trans ?_
  refine (acceptList_cons_none (stepE_plen_more _ _ _ _ _ _ _ _ _ _ (by decide))).trans ?_
  refine (acceptList_cons_none (stepE_plen1 _ _ _ _ _ _ _ _ _ _ (by decide))).trans ?_
  refine (acceptList_cons_none (stepE_ptype1 _ _ _ _ _ _ _ _ _ _ (by decide))).trans ?_
  refine (acceptList_cons_none (stepE_phck_more _ _ _ _ _ _ _ _ _ _ (by decide))).trans ?_
  refine (acceptList_cons_some (stepE_phck1_done _ _ _ _ _ _ _ _ _ _ (by decide)
    (by
      show (0 * 256 + hdrCrc fid 0 typ / 256 % 256) * 256 + hdrCrc fid 0 typ % 256 =
        hdrCrc fid 0 typ
      have := hdrCrc_lt fid 0 typ
      omega)
    (by decide))).trans ?_
  have h2 : 0 * 256 + fid % 256 = fid % 256 := by omega
  have h3 : 0 * 256 + typ % 256 = typ % 256 := by omega
  rw [h2, h3]

/-- Collecting a full nonempty payload takes the decoder from the
payload-collection state to the payload-checksum state, with the payload
appended to the buffer and its running CRC accumulated. -/
theorem payload_trace : ∀ (xs : List Nat) (p : Parser), p.st = PState.pdata →
    p.cnt = xs.length → 0 < xs.length → ∀ (rest : List Nat),
    acceptList p (xs ++ rest) =
      acceptList { p with
        st := PState.ppck, cnt := cksumBytes CksumKind.ckCrc16, acc := 0,
        buf := p.buf ++ xs,
        pcrc := List.foldl (cksumUpdate CksumKind.ckCrc16) p.pcrc xs } rest := by
  intro xs
  induction xs with
  | nil => intro p _ _ h; simp at h
  | cons x xs ih =>
    intro p hst hcnt hpos rest
    cases xs with
    | nil =>
      refine (acceptList_cons_none (step_pdata1 x hst (by
        show p.cnt ≤ 1
        simp only [List.length_cons, List.length_nil] at hcnt
        omega))).trans ?_
      rfl
    | cons y ys =>
      have hc2 : p.cnt = ys.length + 2 := by
        simp only [List.length_cons] at hcnt
        omega
      refine (acceptList_cons_none (step_pdata_more x hst (by omega))).trans ?_
      refine (ih { p with
          cnt := p.cnt - 1, buf := p.buf ++ [x],
          pcrc := cksumUpdate CksumKind.ckCrc16 p.pcrc x }
        (by exact hst)
        (by
          show p.cnt - 1 = (y :: ys).length
          simp only [List.length_cons]
          omega)
        (by simp) rest).trans ?_
      refine congrArg (fun q => acceptList q rest) ?_
      apply Parser.ext <;> first | rfl | simp

/-- Feeding the two payload-checksum bytes from the payload-checksum
state delivers the completed message and resets the decoder. -/
theorem pck_trace (p : Parser) (hst : p.st = PState.ppck) (hcnt : p.cnt = 2)
    (hacc : p.acc = 0) (hlt : p.pcrc < 65536) :
    acceptList p [p.pcrc / 256 % 256, p.pcrc % 256] =
      (initParser, [{ frame_id := p.id, is_response := false, type := p.typ,
                      data := Option.some p.buf, len := p.buf.length,
                      userdata := Option.none }]) := by
  refine (acceptList_cons_none (step_ppck_more (p.pcrc / 256 % 256) hst (by omega))).trans ?_
  refine (acceptList_cons_some (step_ppck1_done (p.pcrc % 256) (by exact hst)
    (by
      show p.cnt - 1 ≤ 1
      omega)
    (by
      show (p.acc * 256 + p.pcrc / 256 % 256) * 256 + p.pcrc % 256 = p.pcrc
      rw [hacc]
      omega))).trans ?_
  rfl

/-! ### Claims C1 and C9: round-trip and payload checksum presence -/

theorem dispatch_parser_eq (env : Nat → TF_MSG → Bool) (e : Endpoint) (m : TF_MSG) :
    (dispatchMsg env e m).1.parser = e.parser := by
  unfold dispatchMsg
  cases hfind : e.id_table.find? (fun s => s.id = m.frame_id) with
  | some s =>
    simp only [hfind]
    split_ifs <;> rfl
  | none =>
    simp only [hfind]
    cases hty : e.type_table.find? (fun s => s.type = m.type) with
    | some ts => simp only [hty]
    | none => simp only [hty]

/-- The messages an endpoint delivers to the dispatcher are exactly the
messages the decoder completes. -/
theorem TF_Accept_msgs (env : Nat → TF_MSG → Bool) : ∀ (bs : List Nat) (e : Endpoint),
    (TF_Accept env e bs).2 = (acceptList e.parser bs).2 := by
  intro bs
  induction bs with
  | nil => intro e; rfl
  | cons b bs ih =>
    intro e
    cases hac : acceptChar e.parser b with
    | mk p1 m =>
      cases m with
      | none =>
        simp only [TF_Accept, acceptList, hac]
        exact ih { e with parser := p1 }
      | some msg =>
        simp only [TF_Accept, acceptList, hac]
        have he1 : (dispatchMsg env { e with parser := p1 } msg).1.parser = p1 :=
          dispatch_parser_eq env { e with parser := p1 } msg
        rw [ih (dispatchMsg env { e with parser := p1 } msg).1, he1]

theorem encodeFrame_decomp (k : CksumKind) (fid typ : Nat) (payload : List Nat) :
    encodeFrame k fid typ payload = frameHeader k fid payload.length typ ++
      (payload ++ (if k ≠ CksumKind.ckNone ∧ 0 < payload.length then
        beBytes (cksumBytes k) (cksumOf k payload) else [])) := by
  unfold encodeFrame
  rw [List.append_assoc]

/-- Claim C1: round-trip — a message accepted by `TF_Send` (payload at
most `TF_MAX_PAYLOAD_TX` bytes), when its emitted bytes are fed to
`TF_Accept` on a freshly initialized endpoint with the same
configuration, is delivered with a byte-identical payload, the same
type and the same frame id. -/
theorem roundtrip_spec :
    ∀ (env : Nat → TF_MSG → Bool) (peer : TF_PEER) (e e' : Endpoint) (msg : TF_MSG)
      (l : Option Nat) (t : Nat) (bs : List Nat) (fid : Nat),
      TF_Send e msg l t = Except.ok (e', bs, fid) →
      fid < 256 → msg.type < 256 → (∀ b ∈ msg.data.getD [], b < 256) →
      (TF_Accept env (TF_Init peer) bs).2 =
        [{ frame_id := fid, is_response := false, type := msg.type,
           data := Option.some (msg.data.getD []), len := (msg.data.getD []).length,
           userdata := Option.none }] := by
  intro env peer e e' msg l t bs fid hsend hfid htyp hbytes
  obtain ⟨-, hbs, hlen⟩ := send_ok_inv hsend
  rw [TF_Accept_msgs env bs (TF_Init peer)]
  show (acceptList initParser bs).2 = _
  rw [hbs]
  cases hpl : msg.data.getD [] with
  | nil =>
    rw [encodeFrame_decomp]
    simp only [List.length_nil, List.nil_append]
    rw [if_neg (by simp)]
    rw [header_trace_zero fid msg.type []]
    simp [acceptList, Nat.mod_eq_of_lt hfid, Nat.mod_eq_of_lt htyp]
  | cons c cs =>
    rw [hpl] at hbytes hlen
    have hplen1 : 0 < (c :: cs).length := by simp
    have hplenmax : (c :: cs).length ≤ TF_MAX_PAYLOAD_RX := by
      unfold TF_MAX_PAYLOAD_RX
      unfold TF_MAX_PAYLOAD_TX at hlen
      omega
    have h16 : (c :: cs).length < 65536 := by
      unfold TF_MAX_PAYLOAD_RX at hplenmax
      omega
    have htrace := (header_trace_pos fid (c :: cs).length msg.type hplen1 hplenmax h16
        ((c :: cs) ++ beBytes (cksumBytes CksumKind.ckCrc16)
          (cksumOf CksumKind.ckCrc16 (c :: cs)))).trans
      ((payload_trace (c :: cs) (pdataParser fid (c :: cs).length msg.type) rfl rfl hplen1
        (beBytes (cksumBytes CksumKind.ckCrc16) (cksumOf CksumKind.ckCrc16 (c :: cs)))).trans
       (pck_trace _ rfl rfl rfl (by
          show List.foldl (cksumUpdate CksumKind.ckCrc16) (cksumInit CksumKind.ckCrc16)
            (c :: cs) < 65536
          exact crcFold_lt (c :: cs) _ (by norm_num [cksumInit]) hbytes)))
    rw [encodeFrame_decomp]
    rw [if_pos (show CksumKind.ckCrc16 ≠ CksumKind.ckNone ∧ 0 < (c :: cs).length
      from ⟨by decide, by simp⟩)]
    rw [htrace]
    simp [pdataParser, Nat.mod_eq_of_lt hfid, Nat.mod_eq_of_lt htyp]

/-- Witness for C1 at concrete inputs. -/
theorem roundtrip_spec_witness :
    (TF_Accept (fun _ _ => false) (TF_Init TF_PEER.TF_SLAVE)
      (encodeFrame CksumKind.ckCrc16 129 34 [72, 105])).2 =
      [{ frame_id := 129, is_response := false, type := 34,
         data := Option.some [72, 105], len := 2, userdata := Option.none }] := by
  have h := roundtrip_spec (fun _ _ => false) TF_PEER.TF_SLAVE (TF_Init TF_PEER.TF_MASTER)
    { TF_Init TF_PEER.TF_MASTER with next_id := 129 }
    { frame_id := 0, is_response := false, type := 34, data := Option.some [72, 105],
      len := 2, userdata := Option.none }
    Option.none 0 (encodeFrame CksumKind.ckCrc16 129 34 [72, 105]) 129
    (by rfl) (by decide) (by decide) (by decide)
  exact h

/-- Claim C9: the payload checksum field is present on the wire iff the
checksum variant is not `none` and the payload length is positive; a
zero-length frame ends immediately after the header checksum, and the
decoder (at the CRC-16 configuration) delivers such a frame without
consuming any payload-checksum bytes. -/
theorem payload_cksum_presence_spec :
    (∀ (k : CksumKind) (fid typ : Nat) (payload : List Nat),
      List.drop ((frameHeader k fid payload.length typ).length + payload.length)
        (encodeFrame k fid typ payload) ≠ [] ↔
      (k ≠ CksumKind.ckNone ∧ 0 < payload.length)) ∧
    (∀ (k : CksumKind) (fid typ : Nat), encodeFrame k fid typ [] = frameHeader k fid 0 typ) ∧
    (∀ (fid typ : Nat), fid < 256 → typ < 256 →
      acceptList initParser (encodeFrame CksumKind.ckCrc16 fid typ []) =
        (initParser, [{ frame_id := fid, is_response := false, type := typ,
                        data := Option.some [], len := 0,
                        userdata := Option.none }])) := by
  refine ⟨?_, ?_, ?_⟩
  · intro k fid typ payload
    unfold encodeFrame
    rw [show (frameHeader k fid payload.length typ).length + payload.length =
      ((frameHeader k fid payload.length typ) ++ payload).length by
        rw [List.length_append]]
    rw [List.drop_left]
    by_cases hcond : k ≠ CksumKind.ckNone ∧ 0 < payload.length
    · rw [if_pos hcond]
      simp only [hcond, iff_true]
      obtain ⟨hk, _⟩ := hcond
      cases k with
      | ckNone => exact absurd rfl hk
      | ckXor8 => simp [cksumBytes, beBytes]
      | ckCrc16 => simp [cksumBytes, beBytes]
      | ckCrc32 => simp [cksumBytes, beBytes]
    · rw [if_neg hcond]
      simp [hcond]
  · intro k fid typ
    unfold encodeFrame
    simp
  · intro fid typ hfid htyp
    have h0 := header_trace_zero fid typ []
    rw [Nat.mod_eq_of_lt hfid, Nat.mod_eq_of_lt htyp] at h0
    exact h0

/-- Witness for C9 at concrete inputs. -/
theorem payload_cksum_presence_spec_witness :
    acceptList initParser (encodeFrame CksumKind.ckCrc16 7 34 []) =
      (initParser, [{ frame_id := 7, is_response := false, type := 34,
                      data := Option.some [], len := 0, userdata := Option.none }]) :=
  payload_cksum_presence_spec.2.2 7 34 (by decide) (by decide)

end TinyFrame
